import Mathlib

/-! # skillserver/echo.go: request accessors and response builder

A shallow embedding of `src/skillserver/echo.go` (package `skillserver`).

* Go `string` values are Lean `String`s; Go's `==` on strings is equality of
  the byte sequences, which for UTF-8 text is equality of the `String`s.
* A Go `map[string]V` is a `GoMap V`: `none` is the nil map, `some kvs` a
  non-nil map with the bindings `kvs` (the first binding of a key is the one
  an index expression finds).
* A pointer field `*T` is an `Option T` (`none` is the nil pointer); a slice
  `[]T` is a `GoSlice T` (`none` is the nil slice).
* `time.Time` is an instant counted in nanoseconds from
  `0001-01-01T00:00:00Z` (the zero `Time`), `time.Duration` a signed 64-bit
  count of nanoseconds. The wall clock read by `time.Since` is an explicit
  argument `now`.
* `json.Marshal` produces a `JSON` document tree; the bytes returned by Go
  are the compact rendering of that tree.
-/

set_option autoImplicit false

/-! ## Go runtime values -/

/-- Go `map[string]V`: `none` is the nil map. -/
abbrev GoMap (V : Type) := Option (List (String × V))

/-- Go `[]T`: `none` is the nil slice. -/
abbrev GoSlice (T : Type) := Option (List T)

/-- The Go index expression `v, ok := m[k]` as an optional value (`none` when `ok` is false).
Indexing a nil map finds nothing. -/
def GoMap.index {V : Type} (m : GoMap V) (k : String) : Option V :=
  match m with
  | none => none
  | some kvs => kvs.lookup k

/-- Go `len(m)` for a map; the nil map has length 0. -/
def GoMap.len {V : Type} (m : GoMap V) : Nat :=
  match m with
  | none => 0
  | some kvs => kvs.length

/-- A Go `error` value made by `errors.New`: it carries its message. -/
structure GoError where
  msg : String
  deriving DecidableEq, Repr

/-! ## Package `time`: instants, durations, `Sub`, `Since` -/

/-- A `time.Time`: nanoseconds since the zero time `0001-01-01T00:00:00Z`. -/
abbrev Time := Int

/-- A `time.Duration`: nanoseconds, held in an `int64`. -/
abbrev Duration := Int

/-- The zero `time.Time{}` value. -/
def zeroTime : Time := 0

/-- Go `time.Second`. -/
def Second : Duration := 1000000000

/-- Largest `time.Duration`, `1<<63 - 1`. -/
def maxDuration : Duration := 9223372036854775807

/-- Smallest `time.Duration`, `-1 << 63`. -/
def minDuration : Duration := -9223372036854775808

/-- Go `t.Sub(u)` on wall-clock readings: the duration `t - u`, and the maximum
(or minimum) duration when the difference does not fit in a `Duration`. -/
def Time.Sub (t u : Time) : Duration :=
  if t - u > maxDuration then maxDuration
  else if t - u < minDuration then minDuration
  else t - u

/-- Go `time.Since(t)` for a `t` without monotonic reading: `time.Now().Sub(t)`,
with the clock reading `now` made explicit. -/
def Since (now t : Time) : Duration := Time.Sub now t

/-! ## Package `time`: `Parse` under the layout `2006-01-02T15:04:05Z` -/

/-- Go `isDigit`: an ASCII decimal digit. -/
def isDigit (c : Char) : Bool := 48 ≤ c.toNat && c.toNat ≤ 57

/-- The value of an ASCII digit. -/
def digitVal (c : Char) : Nat := c.toNat - 48

/-- Go `commaOrPeriod`. -/
def commaOrPeriod (c : Char) : Bool := c = '.' || c = ','

/-- Go `getnum`: one or two leading digits; exactly two when `fixed`. -/
def getnum (s : List Char) (fixed : Bool) : Option (Nat × List Char) :=
  match s with
  | [] => none
  | c0 :: rest =>
    if isDigit c0 then
      match rest with
      | [] => if fixed then none else some (digitVal c0, rest)
      | c1 :: rest2 =>
        if isDigit c1 then some (digitVal c0 * 10 + digitVal c1, rest2)
        else if fixed then none else some (digitVal c0, rest)
    else none

/-- The `stdLongYear` step of `Parse`: exactly four digits. -/
def getyear (s : List Char) : Option (Nat × List Char) :=
  match s with
  | a :: b :: c :: d :: rest =>
    if isDigit a && isDigit b && isDigit c && isDigit d then
      some (digitVal a * 1000 + digitVal b * 100 + digitVal c * 10 + digitVal d, rest)
    else none
  | _ => none

/-- Go `skip` for a one-character literal of the layout (none of them a space). -/
def skipLit (s : List Char) (lit : Char) : Option (List Char) :=
  match s with
  | [] => none
  | c :: rest => if c = lit then some rest else none

/-- Decimal value of a run of digits. -/
def digitsVal (ds : List Char) : Nat := ds.foldl (fun acc c => acc * 10 + digitVal c) 0

/-- The fractional second `Parse` accepts right after the seconds field although
the layout has none: a comma or period followed by a maximal run of digits, of
which the first nine count (Go `parseNanoseconds`; the comma since Go 1.17).
Returns the nanoseconds and
the rest of the input; input without such a field is left untouched. -/
def fracSecond (s : List Char) : Nat × List Char :=
  match s with
  | p :: d :: rest =>
    if commaOrPeriod p && isDigit d then
      let ds := (d :: rest).takeWhile isDigit
      let used := ds.take 9
      (digitsVal used * 10 ^ (9 - used.length), (d :: rest).dropWhile isDigit)
    else (0, s)
  | _ => (0, s)

/-- Go `isLeap`. -/
def isLeap (year : Nat) : Bool := year % 4 = 0 && (year % 100 ≠ 0 || year % 400 = 0)

/-- Go `daysIn`: the number of days of a month (1..12) of a year. -/
def daysIn (month year : Nat) : Nat :=
  if month = 2 then (if isLeap year then 29 else 28)
  else if month = 4 ∨ month = 6 ∨ month = 9 ∨ month = 11 then 30
  else 31

/-- Days of the year before the first of `month` (1..12). -/
def daysBeforeMonth (month year : Nat) : Nat :=
  ((List.range (month - 1)).map (fun m => daysIn (m + 1) year)).sum

/-- Days from 0001-01-01 to the first day of `year` in the proleptic Gregorian
calendar (negative for year 0). -/
def daysBeforeYear (year : Nat) : Int :=
  let y : Int := (year : Int) - 1
  365 * y + y / 4 - y / 100 + y / 400

/-- Go `time.Date(year, month, day, hour, min, sec, nsec, UTC)` for field values
already in range, which is how `Parse` calls it. -/
def Date (year month day hour min sec nsec : Nat) : Time :=
  (((daysBeforeYear year + (daysBeforeMonth month year : Int) + ((day : Int) - 1)) * 86400
      + (hour : Int) * 3600 + (min : Int) * 60 + (sec : Int)) * 1000000000) + (nsec : Int)

/-- The date fields read by `Parse`. -/
structure DateFields where
  year : Nat
  month : Nat
  day : Nat
  deriving DecidableEq, Repr

/-- The clock fields read by `Parse`. -/
structure ClockFields where
  hour : Nat
  min : Nat
  sec : Nat
  nsec : Nat
  deriving DecidableEq, Repr

/-- The part of `Parse` for the layout prefix `2006-01-02`: four-digit year,
`-`, two-digit month (range-checked when read), `-`, two-digit day. -/
def parseDate (value : List Char) : Option (DateFields × List Char) :=
  (getyear value).bind fun yv =>
  (skipLit yv.2 '-').bind fun value =>
  (getnum value true).bind fun mv =>
  if mv.1 = 0 ∨ 12 < mv.1 then none else
  (skipLit mv.2 '-').bind fun value =>
  (getnum value true).bind fun dv =>
  some (⟨yv.1, mv.1, dv.1⟩, dv.2)

/-- The part of `Parse` for the layout piece `15:04:05`: hour of one or two
digits, `:`, two-digit minute, `:`, two-digit second, each range-checked when
read, and the optional fractional second. -/
def parseClock (value : List Char) : Option (ClockFields × List Char) :=
  (getnum value false).bind fun hv =>
  if 24 ≤ hv.1 then none else
  (skipLit hv.2 ':').bind fun value =>
  (getnum value true).bind fun nv =>
  if 60 ≤ nv.1 then none else
  (skipLit nv.2 ':').bind fun value =>
  (getnum value true).bind fun sv =>
  if 60 ≤ sv.1 then none else
  some (⟨hv.1, nv.1, sv.1, (fracSecond sv.2).1⟩, (fracSecond sv.2).2)

/-- Go `time.Parse("2006-01-02T15:04:05Z", value)` on the characters of
`value`: the date, the literal `T`, the clock, the literal `Z`, and nothing
after it; then the day of month is checked against the month's length.
`none` stands for a parse error. -/
def parseChars (value : List Char) : Option Time :=
  (parseDate value).bind fun dv =>
  (skipLit dv.2 'T').bind fun value =>
  (parseClock value).bind fun cv =>
  (skipLit cv.2 'Z').bind fun value =>
  if value ≠ [] then none else
  if dv.1.day < 1 ∨ dv.1.day > daysIn dv.1.month dv.1.year then none else
  some (Date dv.1.year dv.1.month dv.1.day cv.1.hour cv.1.min cv.1.sec cv.1.nsec)

/-- Go `time.Parse("2006-01-02T15:04:05Z", value)`: the parsed time and a nil
error, or the zero `Time` and an error. -/
def timeParse (value : String) : Time × Option GoError :=
  match parseChars value.toList with
  | some t => (t, none)
  | none => (zeroTime, some ⟨"parsing time"⟩)

/-! ## Package `encoding/json`: documents and `omitempty` -/

/-- A JSON document as `json.Marshal` builds it; an object keeps its members in
the order they are written. -/
inductive JSON where
  | null : JSON
  | bool (b : Bool) : JSON
  | num (n : Int) : JSON
  | str (s : String) : JSON
  | arr (xs : List JSON) : JSON
  | obj (members : List (String × JSON)) : JSON

/-- The member of a JSON object under `key`, when the document is an object
that has the key. -/
def JSON.get? (j : JSON) (key : String) : Option JSON :=
  match j with
  | JSON.obj members => members.lookup key
  | _ => none

/-- Whether the document is an object with a member `key`. -/
def JSON.hasKey (j : JSON) (key : String) : Bool := (j.get? key).isSome

/-- The document reached from `j` by following the object keys of `path`. -/
def JSON.path (j : JSON) (path : List String) : Option JSON :=
  path.foldl (fun cur key => cur.bind fun d => d.get? key) (some j)

/-- A struct field of Go type `string` tagged `omitempty`: left out when the
string is empty. -/
def omitemptyString (key val : String) : List (String × JSON) :=
  if val = "" then [] else [(key, JSON.str val)]

/-- A struct field of pointer type tagged `omitempty`: left out when the pointer
is nil, otherwise the encoding of what it points to. -/
def omitemptyPtr {T : Type} (key : String) (ptr : Option T) (enc : T → JSON) :
    List (String × JSON) :=
  match ptr with
  | none => []
  | some v => [(key, enc v)]

/-- A Go `interface{}` value stored in a session-attribute map. The package
only ever hands such a value to `json.Marshal`, so it is represented by what
the encoder makes of it: its JSON document, or the encoder's error (a channel,
a function, a NaN). -/
structure GoValue where
  encoding : Except GoError JSON

/-- Go `json.Marshal` on the entries of a `map[string]interface{}` already in
key order: the members in that order, or the first error met. -/
def marshalEntries : List (String × GoValue) → Except GoError (List (String × JSON))
  | [] => Except.ok []
  | (k, v) :: rest =>
    match v.encoding with
    | Except.error e => Except.error e
    | Except.ok d =>
      match marshalEntries rest with
      | Except.error e => Except.error e
      | Except.ok ms => Except.ok ((k, d) :: ms)

/-- Go `json.Marshal` on a non-nil `map[string]interface{}`: an object whose
members are sorted by key. -/
def marshalMap (kvs : List (String × GoValue)) : Except GoError JSON :=
  match marshalEntries (kvs.insertionSort (fun a b => a.1 ≤ b.1)) with
  | Except.error e => Except.error e
  | Except.ok ms => Except.ok (JSON.obj ms)

/-! ## Request types -/

/-- Go `EchoSlot`. -/
structure EchoSlot where
  Name : String := ""
  Value : String := ""
  deriving DecidableEq, Repr

/-- Go `EchoIntent`. -/
structure EchoIntent where
  Name : String := ""
  Slots : GoMap EchoSlot := none
  deriving DecidableEq, Repr

/-- Go `EchoReqBody`. -/
structure EchoReqBody where
  «Type» : String := ""
  RequestID : String := ""
  Timestamp : String := ""
  Intent : EchoIntent := {}
  Reason : String := ""
  deriving DecidableEq, Repr

/-- The anonymous struct `EchoSession.Application`. -/
structure EchoApplication where
  ApplicationID : String := ""
  deriving DecidableEq, Repr

/-- The anonymous struct `EchoSession.User`. -/
structure EchoUser where
  UserID : String := ""
  AccessToken : String := ""
  deriving DecidableEq, Repr

/-- The anonymous struct `EchoSession.Attributes`, with its one field `String`. -/
structure EchoAttributes where
  String : GoMap GoValue := none

/-- Go `EchoSession`. -/
structure EchoSession where
  New : Bool := false
  SessionID : String := ""
  Application : EchoApplication := {}
  Attributes : EchoAttributes := {}
  User : EchoUser := {}

/-- Go `EchoRequest`. -/
structure EchoRequest where
  Version : String := ""
  Session : EchoSession := {}
  Request : EchoReqBody := {}

/-! ## Request functions -/

/-- Go `(*EchoRequest).VerifyTimestamp`, with the wall clock as argument. -/
def EchoRequest.VerifyTimestamp (this : EchoRequest) (now : Time) : Bool :=
  let reqTimestamp := (timeParse this.Request.Timestamp).1
  if Since now reqTimestamp < 150 * Second then true else false

/-- Go `(*EchoRequest).VerifyAppID`. -/
def EchoRequest.VerifyAppID (this : EchoRequest) (myAppID : String) : Bool :=
  if this.Session.Application.ApplicationID = myAppID then true else false

/-- Go `(*EchoRequest).GetSessionID`. -/
def EchoRequest.GetSessionID (this : EchoRequest) : String := this.Session.SessionID

/-- Go `(*EchoRequest).GetUserID`. -/
def EchoRequest.GetUserID (this : EchoRequest) : String := this.Session.User.UserID

/-- Go `(*EchoRequest).GetRequestType`. -/
def EchoRequest.GetRequestType (this : EchoRequest) : String := this.Request.«Type»

/-- Go `(*EchoRequest).GetIntentName`. -/
def EchoRequest.GetIntentName (this : EchoRequest) : String :=
  if this.GetRequestType = "IntentRequest" then this.Request.Intent.Name
  else this.GetRequestType

/-- Go `(*EchoRequest).GetSlotValue`: the value and a nil error, or the empty
string and the error `Slot name not found.`. -/
def EchoRequest.GetSlotValue (this : EchoRequest) (slotName : String) : String × Option GoError :=
  match this.Request.Intent.Slots.index slotName with
  | some slot => (slot.Value, none)
  | none => ("", some ⟨"Slot name not found."⟩)

/-- Go `(*EchoRequest).AllSlots`. -/
def EchoRequest.AllSlots (this : EchoRequest) : GoMap EchoSlot := this.Request.Intent.Slots

/-! ## Response types -/

/-- Go `EchoRespImage`. -/
structure EchoRespImage where
  SmallImageURL : String := ""
  LargeImageURL : String := ""
  deriving DecidableEq, Repr

/-- Go `EchoRespPayload`. -/
structure EchoRespPayload where
  «Type» : String := ""
  Title : String := ""
  Text : String := ""
  SSML : String := ""
  Content : String := ""
  Image : EchoRespImage := {}
  deriving DecidableEq, Repr

/-- Go `EchoReprompt`. -/
structure EchoReprompt where
  OutputSpeech : EchoRespPayload := {}
  deriving DecidableEq, Repr

/-- Go `EchoAudioStream`. -/
structure EchoAudioStream where
  Token : String := ""
  URL : String := ""
  OffsetInMilli : Int := 0
  deriving DecidableEq, Repr

/-- Go `EchoAudioItem`. -/
structure EchoAudioItem where
  Stream : EchoAudioStream := {}
  deriving DecidableEq, Repr

/-- Go `EchoRespAudioDir`. -/
structure EchoRespAudioDir where
  «Type» : String := ""
  PlayBehavior : String := ""
  AudioItem : EchoAudioItem := {}
  deriving DecidableEq, Repr

/-- Go `EchoRespBody`. `Directives` is a pointer to a slice. -/
structure EchoRespBody where
  OutputSpeech : Option EchoRespPayload := none
  Card : Option EchoRespPayload := none
  Reprompt : Option EchoReprompt := none
  Directives : Option (GoSlice EchoRespAudioDir) := none
  ShouldEndSession : Bool := false
  deriving DecidableEq, Repr

/-- Go `EchoResponse`. -/
structure EchoResponse where
  Version : String := ""
  SessionAttributes : GoMap GoValue := none
  Response : EchoRespBody := {}

/-! ## Response functions -/

/-- Go `NewEchoResponse`. -/
def NewEchoResponse : EchoResponse :=
  { Version := "1.0", Response := { ShouldEndSession := true } }

/-- Go `(*EchoResponse).OutputSpeech`. -/
def EchoResponse.OutputSpeech (this : EchoResponse) (text : String) : EchoResponse :=
  { this with Response := { this.Response with
      OutputSpeech := some { «Type» := "PlainText", Text := text } } }

/-- Go `(*EchoResponse).OutputSpeechSSML`. -/
def EchoResponse.OutputSpeechSSML (this : EchoResponse) (text : String) : EchoResponse :=
  { this with Response := { this.Response with
      OutputSpeech := some { «Type» := "SSML", SSML := text } } }

/-- Go `(*EchoResponse).SimpleCard`. -/
def EchoResponse.SimpleCard (this : EchoResponse) (title content : String) : EchoResponse :=
  { this with Response := { this.Response with
      Card := some { «Type» := "Simple", Title := title, Content := content } } }

/-- Go `(*EchoResponse).Card`. -/
def EchoResponse.Card (this : EchoResponse) (title content : String) : EchoResponse :=
  this.SimpleCard title content

/-- Go `(*EchoResponse).StandardCard`: the fresh card, then the two guarded
assignments to its image. -/
def EchoResponse.StandardCard (this : EchoResponse)
    (title content smallImg largeImg : String) : EchoResponse :=
  let card0 : EchoRespPayload := { «Type» := "Standard", Title := title, Content := content }
  let card1 : EchoRespPayload :=
    if smallImg ≠ "" then { card0 with Image := { card0.Image with SmallImageURL := smallImg } }
    else card0
  let card2 : EchoRespPayload :=
    if largeImg ≠ "" then { card1 with Image := { card1.Image with LargeImageURL := largeImg } }
    else card1
  { this with Response := { this.Response with Card := some card2 } }

/-- Go `(*EchoResponse).LinkAccountCard`. -/
def EchoResponse.LinkAccountCard (this : EchoResponse) : EchoResponse :=
  { this with Response := { this.Response with Card := some { «Type» := "LinkAccount" } } }

/-- Go `(*EchoResponse).Reprompt`. -/
def EchoResponse.Reprompt (this : EchoResponse) (text : String) : EchoResponse :=
  { this with Response := { this.Response with
      Reprompt := some { OutputSpeech := { «Type» := "PlainText", Text := text } } } }

/-- Go `(*EchoResponse).AudioPlayerPlay`. The two `log.Println` calls that
follow the assignment write the encoding of the updated `Response` to the
process logger and leave the response as it is. -/
def EchoResponse.AudioPlayerPlay (this : EchoResponse) (url token : String) : EchoResponse :=
  { this with Response := { this.Response with
      Directives := some (some [
        { «Type» := "AudioPlayer.Play",
          PlayBehavior := "REPLACE_ALL",
          AudioItem := { Stream := { Token := token, URL := url, OffsetInMilli := 0 } } }]) } }

/-- Go `(*EchoResponse).AudioPlayerStop`; `url` and `token` are unused. The
logging is as in `AudioPlayerPlay`. -/
def EchoResponse.AudioPlayerStop (this : EchoResponse) (_url _token : String) : EchoResponse :=
  { this with Response := { this.Response with
      Directives := some (some [{ «Type» := "AudioPlayer.Stop" }]) } }

/-- Go `(*EchoResponse).AudioPlayClearQueue`; `url` and `token` are unused. The
logging is as in `AudioPlayerPlay`. -/
def EchoResponse.AudioPlayClearQueue (this : EchoResponse) (_url _token : String) :
    EchoResponse :=
  { this with Response := { this.Response with
      Directives := some (some [{ «Type» := "AudioPlayer.ClearQueue" }]) } }

/-- Go `(*EchoResponse).EndSession`. -/
def EchoResponse.EndSession (this : EchoResponse) (flag : Bool) : EchoResponse :=
  { this with Response := { this.Response with ShouldEndSession := flag } }

/-! ## `json.Marshal` on the response types, following the struct tags -/

/-- Encoding of `EchoRespImage`: both members are `omitempty` strings. -/
def EchoRespImage.marshal (img : EchoRespImage) : JSON :=
  JSON.obj (omitemptyString "smallImageUrl" img.SmallImageURL
    ++ omitemptyString "largeImageUrl" img.LargeImageURL)

/-- Encoding of `EchoRespPayload`. `omitempty` on the struct-typed field `Image`
never omits it: a struct value is not an empty value for `encoding/json`. -/
def EchoRespPayload.marshal (p : EchoRespPayload) : JSON :=
  JSON.obj (omitemptyString "type" p.«Type»
    ++ omitemptyString "title" p.Title
    ++ omitemptyString "text" p.Text
    ++ omitemptyString "ssml" p.SSML
    ++ omitemptyString "content" p.Content
    ++ [("image", p.Image.marshal)])

/-- Encoding of `EchoReprompt`; `omitempty` on the struct-typed field has no
effect. -/
def EchoReprompt.marshal (rp : EchoReprompt) : JSON :=
  JSON.obj [("outputSpeech", rp.OutputSpeech.marshal)]

/-- Encoding of `EchoAudioStream`. -/
def EchoAudioStream.marshal (st : EchoAudioStream) : JSON :=
  JSON.obj [("token", JSON.str st.Token), ("url", JSON.str st.URL),
    ("offsetInMilliseconds", JSON.num st.OffsetInMilli)]

/-- Encoding of `EchoAudioItem`. -/
def EchoAudioItem.marshal (it : EchoAudioItem) : JSON :=
  JSON.obj [("stream", it.Stream.marshal)]

/-- Encoding of `EchoRespAudioDir`; `omitempty` on the struct-typed field
`AudioItem` has no effect. -/
def EchoRespAudioDir.marshal (d : EchoRespAudioDir) : JSON :=
  JSON.obj ([("type", JSON.str d.«Type»)]
    ++ omitemptyString "playBehavior" d.PlayBehavior
    ++ [("audioItem", d.AudioItem.marshal)])

/-- Encoding of a `[]EchoRespAudioDir`: `null` for the nil slice, an array
otherwise. -/
def marshalDirectives (ds : GoSlice EchoRespAudioDir) : JSON :=
  match ds with
  | none => JSON.null
  | some xs => JSON.arr (xs.map EchoRespAudioDir.marshal)

/-- Encoding of `EchoRespBody`: the four pointer fields are `omitempty`,
`shouldEndSession` is not. -/
def EchoRespBody.marshal (b : EchoRespBody) : JSON :=
  JSON.obj (omitemptyPtr "outputSpeech" b.OutputSpeech EchoRespPayload.marshal
    ++ omitemptyPtr "card" b.Card EchoRespPayload.marshal
    ++ omitemptyPtr "reprompt" b.Reprompt EchoReprompt.marshal
    ++ omitemptyPtr "directives" b.Directives marshalDirectives
    ++ [("shouldEndSession", JSON.bool b.ShouldEndSession)])

/-- The member `sessionAttributes` of the encoded response: `omitempty` on a
map leaves it out when the map has length 0, nil or not. -/
def marshalSessionAttributes (m : GoMap GoValue) :
    Except GoError (List (String × JSON)) :=
  match m with
  | none => Except.ok []
  | some kvs =>
    if kvs.length = 0 then Except.ok []
    else
      match marshalMap kvs with
      | Except.error e => Except.error e
      | Except.ok d => Except.ok [("sessionAttributes", d)]

/-- Go `json.Marshal(this)` for an `*EchoResponse`. -/
def marshalResponse (this : EchoResponse) : Except GoError JSON :=
  match marshalSessionAttributes this.SessionAttributes with
  | Except.error e => Except.error e
  | Except.ok attrs =>
    Except.ok (JSON.obj ([("version", JSON.str this.Version)] ++ attrs
      ++ [("response", this.Response.marshal)]))

/-- Go `(*EchoResponse).String`: the encoded response and a nil error, or no
payload and the encoder's error. Inside the namespace `EchoResponse` the name
`String` denotes this function from here on, so declarations that mention the
type `String` and come after it are named outside that namespace. -/
def EchoResponse.String (this : EchoResponse) : Except GoError JSON :=
  match marshalResponse this with
  | Except.error err => Except.error err
  | Except.ok jsonStr => Except.ok jsonStr

/-! ## The timestamp format in the words of the specification -/

/-- Whether the character `c` matches the pattern character `p`: a `d` in a
pattern stands for any decimal digit, every other pattern character for
itself. -/
def matchesChar (p c : Char) : Bool := if p = 'd' then isDigit c else c = p

/-- Whether `cs` matches `pat` character by character, over its whole length. -/
def matchesPattern : List Char → List Char → Bool
  | [], [] => true
  | p :: ps, c :: cs => matchesChar p c && matchesPattern ps cs
  | _, _ => false

/-- The rest of `cs` after a prefix that matches `pat`, if there is one. -/
def stripPattern : List Char → List Char → Option (List Char)
  | [], cs => some cs
  | _ :: _, [] => none
  | p :: ps, c :: cs => if matchesChar p c then stripPattern ps cs else none

/-- The timestamp format as the specification words it, `YYYY-MM-DDTHH:MM:SSZ`:
second precision, literal `T` and `Z`, every field of full width. This is the
specification's notion, written independently of `timeParse`. -/
def specTimestampFormat (s : String) : Bool :=
  matchesPattern "dddd-dd-ddTdd:dd:ddZ".toList s.toList

/-- A fractional second followed by the closing `Z`: a period or comma, one or
more digits, `Z`, and nothing more. -/
def isFractionZ (cs : List Char) : Bool :=
  match cs with
  | p :: d :: rest =>
    commaOrPeriod p && isDigit d && decide ((d :: rest).dropWhile isDigit = ['Z'])
  | _ => false

/-- The two departures from the format `YYYY-MM-DDTHH:MM:SSZ` under which a
timestamp can still get through the parser: a fractional second between the
seconds and the `Z`, and an hour written with one digit (with or without a
fractional second). -/
def toleratedVariant (s : String) : Bool :=
  (match stripPattern "dddd-dd-ddTdd:dd:dd".toList s.toList with
    | some r => isFractionZ r
    | none => false)
  || (match stripPattern "dddd-dd-ddTd:dd:dd".toList s.toList with
    | some r => decide (r = ['Z']) || isFractionZ r
    | none => false)

/-! ## Response values built field by field -/

/-- A response whose `SessionAttributes` is set to a non-nil map with no
entries (`map[string]interface{}{}`). -/
def respEmptyAttributes : EchoResponse :=
  { Version := "1.0", SessionAttributes := some [], Response := { ShouldEndSession := true } }

/-- A response whose `Directives` points to a nil slice
(`var ds []EchoRespAudioDir; r.Response.Directives = &ds`). -/
def respNilDirectives : EchoResponse :=
  { Version := "1.0", Response := { Directives := some none, ShouldEndSession := true } }

/-! ## Sequences of builder calls -/

/-- One call of a builder method of `*EchoResponse`, with its arguments. -/
inductive BuilderOp where
  | OutputSpeech (text : String)
  | OutputSpeechSSML (text : String)
  | Card (title content : String)
  | SimpleCard (title content : String)
  | StandardCard (title content smallImg largeImg : String)
  | LinkAccountCard
  | Reprompt (text : String)
  | AudioPlayerPlay (url token : String)
  | AudioPlayerStop (url token : String)
  | AudioPlayClearQueue (url token : String)
  | EndSession (flag : Bool)
  deriving DecidableEq, Repr

/-- The response after the builder call `op` on `r`. -/
def BuilderOp.apply (op : BuilderOp) (r : EchoResponse) : EchoResponse :=
  match op with
  | BuilderOp.OutputSpeech text => r.OutputSpeech text
  | BuilderOp.OutputSpeechSSML text => r.OutputSpeechSSML text
  | BuilderOp.Card title content => r.Card title content
  | BuilderOp.SimpleCard title content => r.SimpleCard title content
  | BuilderOp.StandardCard title content smallImg largeImg =>
    r.StandardCard title content smallImg largeImg
  | BuilderOp.LinkAccountCard => r.LinkAccountCard
  | BuilderOp.Reprompt text => r.Reprompt text
  | BuilderOp.AudioPlayerPlay url token => r.AudioPlayerPlay url token
  | BuilderOp.AudioPlayerStop url token => r.AudioPlayerStop url token
  | BuilderOp.AudioPlayClearQueue url token => r.AudioPlayClearQueue url token
  | BuilderOp.EndSession flag => r.EndSession flag

/-- The response after the chained builder calls `ops`, first to last, on `r`. -/
def runBuilder (ops : List BuilderOp) (r : EchoResponse) : EchoResponse :=
  ops.foldl (fun acc op => op.apply acc) r

/-- The flag of the call `op` when it is an `EndSession` call. -/
def endSessionFlag (op : BuilderOp) : Option Bool :=
  match op with
  | BuilderOp.EndSession flag => some flag
  | _ => none

/-- The flag of the last `EndSession` call among `ops`, if there is one. -/
def lastEndSession : List BuilderOp → Option Bool
  | [] => none
  | op :: rest =>
    match lastEndSession rest with
    | some flag => some flag
    | none => endSessionFlag op

/-- The responses `a` and `b` agree on every field other than
`Response.OutputSpeech`. -/
def sameExceptOutputSpeech (a b : EchoResponse) : Prop :=
  a.Version = b.Version ∧ a.SessionAttributes = b.SessionAttributes
  ∧ a.Response.Card = b.Response.Card ∧ a.Response.Reprompt = b.Response.Reprompt
  ∧ a.Response.Directives = b.Response.Directives
  ∧ a.Response.ShouldEndSession = b.Response.ShouldEndSession

/-- The responses `a` and `b` agree on every field other than `Response.Card`. -/
def sameExceptCard (a b : EchoResponse) : Prop :=
  a.Version = b.Version ∧ a.SessionAttributes = b.SessionAttributes
  ∧ a.Response.OutputSpeech = b.Response.OutputSpeech
  ∧ a.Response.Reprompt = b.Response.Reprompt
  ∧ a.Response.Directives = b.Response.Directives
  ∧ a.Response.ShouldEndSession = b.Response.ShouldEndSession

/-- The responses `a` and `b` agree on every field other than
`Response.Reprompt`. -/
def sameExceptReprompt (a b : EchoResponse) : Prop :=
  a.Version = b.Version ∧ a.SessionAttributes = b.SessionAttributes
  ∧ a.Response.OutputSpeech = b.Response.OutputSpeech ∧ a.Response.Card = b.Response.Card
  ∧ a.Response.Directives = b.Response.Directives
  ∧ a.Response.ShouldEndSession = b.Response.ShouldEndSession

/-- The responses `a` and `b` agree on every field other than
`Response.Directives`. -/
def sameExceptDirectives (a b : EchoResponse) : Prop :=
  a.Version = b.Version ∧ a.SessionAttributes = b.SessionAttributes
  ∧ a.Response.OutputSpeech = b.Response.OutputSpeech ∧ a.Response.Card = b.Response.Card
  ∧ a.Response.Reprompt = b.Response.Reprompt
  ∧ a.Response.ShouldEndSession = b.Response.ShouldEndSession

/-- The responses `a` and `b` agree on every field other than
`Response.ShouldEndSession`. -/
def sameExceptShouldEndSession (a b : EchoResponse) : Prop :=
  a.Version = b.Version ∧ a.SessionAttributes = b.SessionAttributes
  ∧ a.Response.OutputSpeech = b.Response.OutputSpeech ∧ a.Response.Card = b.Response.Card
  ∧ a.Response.Reprompt = b.Response.Reprompt
  ∧ a.Response.Directives = b.Response.Directives

/-! ## Shared lemmas -/

theorem Time.Sub_lt_iff (t u : Time) (d : Duration)
    (hlo : minDuration < d) (hhi : d ≤ maxDuration) :
    Time.Sub t u < d ↔ t - u < d := by
  have key : ∀ (a b c : Int), -9223372036854775808 < c → c ≤ 9223372036854775807 →
      ((if a - b > 9223372036854775807 then (9223372036854775807 : Int)
        else if a - b < -9223372036854775808 then -9223372036854775808 else a - b) < c
        ↔ a - b < c) := by
    intro a b c h1 h2
    split_ifs <;> omega
  exact key t u d hlo hhi

theorem VerifyTimestamp_eq (this : EchoRequest) (now : Time) :
    this.VerifyTimestamp now
      = decide (now - (timeParse this.Request.Timestamp).1 < 150 * Second) := by
  have h := Time.Sub_lt_iff now (timeParse this.Request.Timestamp).1 (150 * Second)
    (by decide) (by decide)
  unfold EchoRequest.VerifyTimestamp Since
  by_cases hc : now - (timeParse this.Request.Timestamp).1 < 150 * Second
  · simp [hc, h.mpr hc]
  · have hn : ¬ Time.Sub now (timeParse this.Request.Timestamp).1 < 150 * Second :=
      fun hx => hc (h.mp hx)
    simp [hc, hn]

theorem timeParse_error_fst (value : String) (h : (timeParse value).2 ≠ none) :
    (timeParse value).1 = zeroTime := by
  revert h
  unfold timeParse
  cases parseChars value.toList <;> simp

theorem marshalSessionAttributes_ok (m : GoMap GoValue) (attrs : List (String × JSON))
    (h : marshalSessionAttributes m = Except.ok attrs) :
    (m.len = 0 ∧ attrs = [])
    ∨ (0 < m.len ∧ ∃ ms, attrs = [("sessionAttributes", JSON.obj ms)]) := by
  unfold marshalSessionAttributes at h
  cases m with
  | none =>
    left
    simp only [Except.ok.injEq] at h
    exact ⟨rfl, h.symm⟩
  | some kvs =>
    by_cases hl : kvs.length = 0
    · left
      simp only [hl, if_true, Except.ok.injEq] at h
      exact ⟨hl, h.symm⟩
    · right
      dsimp only at h
      rw [if_neg hl] at h
      unfold marshalMap at h
      generalize marshalEntries (kvs.insertionSort (fun a b => a.1 ≤ b.1)) = r at h
      cases r with
      | error e => simp at h
      | ok ms =>
        simp only [Except.ok.injEq] at h
        exact ⟨Nat.pos_of_ne_zero hl, ms, h.symm⟩

theorem String_ok (this : EchoResponse) (doc : JSON) (h : this.String = Except.ok doc) :
    ∃ attrs, marshalSessionAttributes this.SessionAttributes = Except.ok attrs
      ∧ doc = JSON.obj ([("version", JSON.str this.Version)] ++ attrs
          ++ [("response", this.Response.marshal)]) := by
  unfold EchoResponse.String marshalResponse at h
  cases ha : marshalSessionAttributes this.SessionAttributes with
  | error e => simp [ha] at h
  | ok attrs =>
    simp only [ha, Except.ok.injEq] at h
    exact ⟨attrs, rfl, h.symm⟩

theorem String_ok_of_no_attributes (this : EchoResponse) (h : this.SessionAttributes.len = 0) :
    this.String = Except.ok (JSON.obj [("version", JSON.str this.Version),
      ("response", this.Response.marshal)]) := by
  unfold EchoResponse.String marshalResponse marshalSessionAttributes
  cases hm : this.SessionAttributes with
  | none => rfl
  | some kvs =>
    have hl : kvs.length = 0 := by
      rw [hm] at h
      exact h
    simp [hl]

theorem String_get_response (this : EchoResponse) (doc : JSON)
    (h : this.String = Except.ok doc) :
    doc.get? "response" = some this.Response.marshal := by
  obtain ⟨attrs, ha, hd⟩ := String_ok this doc h
  subst hd
  rcases marshalSessionAttributes_ok _ _ ha with ⟨_, rfl⟩ | ⟨_, ms, rfl⟩ <;> rfl

theorem String_get_sessionAttributes (this : EchoResponse) (doc : JSON)
    (h : this.String = Except.ok doc) :
    (this.SessionAttributes.len = 0 ∧ doc.get? "sessionAttributes" = none)
    ∨ (0 < this.SessionAttributes.len ∧ ∃ ms, doc.get? "sessionAttributes" = some (JSON.obj ms)) := by
  obtain ⟨attrs, ha, hd⟩ := String_ok this doc h
  subst hd
  rcases marshalSessionAttributes_ok _ _ ha with ⟨h0, rfl⟩ | ⟨hpos, ms, rfl⟩
  · exact Or.inl ⟨h0, rfl⟩
  · exact Or.inr ⟨hpos, ms, rfl⟩

theorem JSON.path_response (this : EchoResponse) (doc : JSON)
    (h : this.String = Except.ok doc) (rest : List String) :
    doc.path ("response" :: rest) = this.Response.marshal.path rest := by
  unfold JSON.path
  simp only [List.foldl_cons, Option.some_bind, String_get_response this doc h]

theorem body_get_outputSpeech (b : EchoRespBody) :
    b.marshal.get? "outputSpeech" = b.OutputSpeech.map EchoRespPayload.marshal := by
  obtain ⟨os, cd, rp, ds, fl⟩ := b
  cases os <;> cases cd <;> cases rp <;> cases ds <;> rfl

theorem body_get_card (b : EchoRespBody) :
    b.marshal.get? "card" = b.Card.map EchoRespPayload.marshal := by
  obtain ⟨os, cd, rp, ds, fl⟩ := b
  cases os <;> cases cd <;> cases rp <;> cases ds <;> rfl

theorem body_get_reprompt (b : EchoRespBody) :
    b.marshal.get? "reprompt" = b.Reprompt.map EchoReprompt.marshal := by
  obtain ⟨os, cd, rp, ds, fl⟩ := b
  cases os <;> cases cd <;> cases rp <;> cases ds <;> rfl

theorem body_get_directives (b : EchoRespBody) :
    b.marshal.get? "directives" = b.Directives.map marshalDirectives := by
  obtain ⟨os, cd, rp, ds, fl⟩ := b
  cases os <;> cases cd <;> cases rp <;> cases ds <;> rfl

theorem body_get_shouldEndSession (b : EchoRespBody) :
    b.marshal.get? "shouldEndSession" = some (JSON.bool b.ShouldEndSession) := by
  obtain ⟨os, cd, rp, ds, fl⟩ := b
  cases os <;> cases cd <;> cases rp <;> cases ds <;> rfl

theorem JSON.path_one (j : JSON) (key : String) : j.path [key] = j.get? key := rfl

theorem JSON.path_cons (j : JSON) (key : String) (rest : List String) :
    j.path (key :: rest) = (j.get? key).bind fun d => d.path rest := by
  unfold JSON.path
  simp only [List.foldl_cons, Option.some_bind]
  cases j.get? key with
  | some d => rfl
  | none =>
    simp only [Option.none_bind]
    induction rest with
    | nil => rfl
    | cons k ks ih => simpa using ih

theorem lookup_omitemptyString_ne (k k' v : String) (rest : List (String × JSON))
    (h : k ≠ k') : (omitemptyString k' v ++ rest).lookup k = rest.lookup k := by
  unfold omitemptyString
  have hb : (k == k') = false := by simpa using h
  by_cases hv : v = ""
  · simp [hv]
  · simp [hv, List.lookup, hb]

theorem lookup_omitemptyString_eq (k v : String) (rest : List (String × JSON)) :
    (omitemptyString k v ++ rest).lookup k
      = if v = "" then rest.lookup k else some (JSON.str v) := by
  unfold omitemptyString
  by_cases hv : v = ""
  · simp [hv]
  · simp [hv, List.lookup]

theorem payload_get_image (p : EchoRespPayload) :
    p.marshal.get? "image" = some p.Image.marshal := by
  unfold EchoRespPayload.marshal JSON.get?
  simp only [List.append_assoc]
  rw [lookup_omitemptyString_ne _ _ _ _ (by decide), lookup_omitemptyString_ne _ _ _ _ (by decide),
    lookup_omitemptyString_ne _ _ _ _ (by decide), lookup_omitemptyString_ne _ _ _ _ (by decide),
    lookup_omitemptyString_ne _ _ _ _ (by decide)]
  rfl

theorem image_get_small (img : EchoRespImage) :
    img.marshal.get? "smallImageUrl"
      = if img.SmallImageURL = "" then none else some (JSON.str img.SmallImageURL) := by
  unfold EchoRespImage.marshal JSON.get?
  simp only []
  rw [lookup_omitemptyString_eq]
  have h := lookup_omitemptyString_ne "smallImageUrl" "largeImageUrl" img.LargeImageURL []
    (by decide)
  simp only [List.append_nil] at h
  rw [h]
  rfl

theorem image_get_large (img : EchoRespImage) :
    img.marshal.get? "largeImageUrl"
      = if img.LargeImageURL = "" then none else some (JSON.str img.LargeImageURL) := by
  unfold EchoRespImage.marshal JSON.get?
  simp only []
  rw [lookup_omitemptyString_ne _ _ _ _ (by decide)]
  have h := lookup_omitemptyString_eq "largeImageUrl" img.LargeImageURL []
  simp only [List.append_nil] at h
  rw [h]
  rfl

theorem stripPattern_append (p q cs : List Char) :
    stripPattern (p ++ q) cs = (stripPattern p cs).bind (stripPattern q) := by
  induction p generalizing cs with
  | nil => rfl
  | cons a p ih =>
    cases cs with
    | nil => rfl
    | cons c cs =>
      simp only [List.cons_append, stripPattern]
      by_cases hm : matchesChar a c = true
      · simp only [hm, if_true]
        exact ih cs
      · simp [hm]

theorem matchesPattern_iff (p cs : List Char) :
    matchesPattern p cs = true ↔ stripPattern p cs = some [] := by
  induction p generalizing cs with
  | nil => cases cs <;> simp [matchesPattern, stripPattern]
  | cons a p ih =>
    cases cs with
    | nil => simp [matchesPattern, stripPattern]
    | cons c cs =>
      simp only [matchesPattern, stripPattern, Bool.and_eq_true]
      by_cases hm : matchesChar a c = true
      · simp only [hm, if_true, true_and]
        exact ih cs
      · simp [hm]

theorem getyear_strip (s : List Char) (yr : Nat × List Char) (h : getyear s = some yr) :
    stripPattern ['d', 'd', 'd', 'd'] s = some yr.2 := by
  unfold getyear at h
  split at h
  · rename_i a b c d rest
    by_cases hd : (isDigit a && isDigit b && isDigit c && isDigit d) = true
    · rw [if_pos hd] at h
      simp only [Option.some.injEq] at h
      subst h
      simp only [Bool.and_eq_true] at hd
      simp [stripPattern, matchesChar, hd.1.1.1, hd.1.1.2, hd.1.2, hd.2]
    · rw [if_neg hd] at h
      exact absurd h (by simp)
  · exact absurd h (by simp)

theorem skipLit_strip (s : List Char) (lit : Char) (r : List Char)
    (hlit : lit ≠ 'd') (h : skipLit s lit = some r) : stripPattern [lit] s = some r := by
  unfold skipLit at h
  cases s with
  | nil => exact absurd h (by simp)
  | cons c rest =>
    by_cases hc : c = lit
    · simp only [hc, if_true, Option.some.injEq] at h
      subst h
      subst hc
      simp [stripPattern, matchesChar, hlit]
    · simp [hc] at h

theorem getnum_strip (s : List Char) (fixed : Bool) (nr : Nat × List Char)
    (h : getnum s fixed = some nr) :
    stripPattern ['d', 'd'] s = some nr.2
      ∨ (fixed = false ∧ stripPattern ['d'] s = some nr.2) := by
  unfold getnum at h
  cases s with
  | nil => exact absurd h (by simp)
  | cons c0 rest =>
    by_cases h0 : isDigit c0 = true
    · simp only [h0, if_true] at h
      cases rest with
      | nil =>
        cases fixed with
        | true => simp at h
        | false =>
          simp only [Bool.false_eq_true, if_false, Option.some.injEq] at h
          subst h
          right
          simp [stripPattern, matchesChar, h0]
      | cons c1 rest2 =>
        by_cases h1 : isDigit c1 = true
        · simp only [h1, if_true, Option.some.injEq] at h
          subst h
          left
          simp [stripPattern, matchesChar, h0, h1]
        · cases fixed with
          | true => simp [h1] at h
          | false =>
            simp only [h1, Bool.false_eq_true, if_false, Option.some.injEq] at h
            subst h
            right
            simp [stripPattern, matchesChar, h0]
    · simp [h0] at h

theorem parseDate_strip (cs : List Char) (dv : DateFields × List Char)
    (h : parseDate cs = some dv) : stripPattern "dddd-dd-dd".toList cs = some dv.2 := by
  unfold parseDate at h
  obtain ⟨yv, hy, h⟩ := Option.bind_eq_some.mp h
  obtain ⟨v1, h1, h⟩ := Option.bind_eq_some.mp h
  obtain ⟨mv, hm, h⟩ := Option.bind_eq_some.mp h
  split at h
  · exact absurd h (by simp)
  · obtain ⟨v2, h2, h⟩ := Option.bind_eq_some.mp h
    obtain ⟨d, hd, h⟩ := Option.bind_eq_some.mp h
    simp only [Option.some.injEq] at h
    subst h
    have e : "dddd-dd-dd".toList
        = ['d', 'd', 'd', 'd'] ++ (['-'] ++ (['d', 'd'] ++ (['-'] ++ ['d', 'd']))) := by
      decide
    have hmm : stripPattern ['d', 'd'] v1 = some mv.2 := by
      rcases getnum_strip _ _ _ hm with hx | ⟨hx, _⟩
      · exact hx
      · exact absurd hx (by simp)
    have hdd : stripPattern ['d', 'd'] v2 = some d.2 := by
      rcases getnum_strip _ _ _ hd with hx | ⟨hx, _⟩
      · exact hx
      · exact absurd hx (by simp)
    rw [e, stripPattern_append, getyear_strip _ _ hy, Option.some_bind, stripPattern_append,
      skipLit_strip _ _ _ (by decide) h1, Option.some_bind, stripPattern_append, hmm,
      Option.some_bind, stripPattern_append, skipLit_strip _ _ _ (by decide) h2,
      Option.some_bind, hdd]

theorem parseClock_strip (v : List Char) (cv : ClockFields × List Char)
    (h : parseClock v = some cv) :
    ∃ r, (stripPattern "dd:dd:dd".toList v = some r ∨ stripPattern "d:dd:dd".toList v = some r)
      ∧ cv.2 = (fracSecond r).2 := by
  unfold parseClock at h
  obtain ⟨hv, hh, h⟩ := Option.bind_eq_some.mp h
  split at h
  · exact absurd h (by simp)
  · obtain ⟨v1, h1, h⟩ := Option.bind_eq_some.mp h
    obtain ⟨nv, hn, h⟩ := Option.bind_eq_some.mp h
    split at h
    · exact absurd h (by simp)
    · obtain ⟨v2, h2, h⟩ := Option.bind_eq_some.mp h
      obtain ⟨sv, hs, h⟩ := Option.bind_eq_some.mp h
      split at h
      · exact absurd h (by simp)
      · simp only [Option.some.injEq] at h
        subst h
        have e2 : "dd:dd:dd".toList
            = ['d', 'd'] ++ ([':'] ++ (['d', 'd'] ++ ([':'] ++ ['d', 'd']))) := by decide
        have e1 : "d:dd:dd".toList
            = ['d'] ++ ([':'] ++ (['d', 'd'] ++ ([':'] ++ ['d', 'd']))) := by decide
        have hnn : stripPattern ['d', 'd'] v1 = some nv.2 := by
          rcases getnum_strip _ _ _ hn with hx | ⟨hx, _⟩
          · exact hx
          · exact absurd hx (by simp)
        have hss : stripPattern ['d', 'd'] v2 = some sv.2 := by
          rcases getnum_strip _ _ _ hs with hx | ⟨hx, _⟩
          · exact hx
          · exact absurd hx (by simp)
        have tail : (stripPattern ([':'] ++ (['d', 'd'] ++ ([':'] ++ ['d', 'd']))) hv.2)
            = some sv.2 := by
          rw [stripPattern_append, skipLit_strip _ _ _ (by decide) h1, Option.some_bind,
            stripPattern_append, hnn, Option.some_bind, stripPattern_append,
            skipLit_strip _ _ _ (by decide) h2, Option.some_bind, hss]
        refine ⟨sv.2, ?_, rfl⟩
        rcases getnum_strip _ _ _ hh with hx | ⟨_, hx⟩
        · left
          rw [e2, stripPattern_append, hx, Option.some_bind, tail]
        · right
          rw [e1, stripPattern_append, hx, Option.some_bind, tail]

theorem fracSecond_Z (r : List Char) (h : (fracSecond r).2 = ['Z']) :
    r = ['Z'] ∨ isFractionZ r = true := by
  unfold fracSecond at h
  match r, h with
  | [], h => simp at h
  | [c], h => exact Or.inl h
  | p :: d :: rest, h =>
    by_cases hc : (commaOrPeriod p && isDigit d) = true
    · right
      simp only [hc, if_true] at h
      simp only [Bool.and_eq_true] at hc
      simp [isFractionZ, hc.1, hc.2, h]
    · simp [hc] at h

theorem parseChars_shape (cs : List Char) (t : Time) (h : parseChars cs = some t) :
    matchesPattern "dddd-dd-ddTdd:dd:ddZ".toList cs = true
    ∨ (match stripPattern "dddd-dd-ddTdd:dd:dd".toList cs with
        | some r => isFractionZ r
        | none => false) = true
    ∨ (match stripPattern "dddd-dd-ddTd:dd:dd".toList cs with
        | some r => decide (r = ['Z']) || isFractionZ r
        | none => false) = true := by
  unfold parseChars at h
  obtain ⟨dv, hd, h⟩ := Option.bind_eq_some.mp h
  obtain ⟨v1, h1, h⟩ := Option.bind_eq_some.mp h
  obtain ⟨cv, hc, h⟩ := Option.bind_eq_some.mp h
  obtain ⟨v2, h2, h⟩ := Option.bind_eq_some.mp h
  split at h
  · exact absurd h (by simp)
  · rename_i hnil
    have hv2 : v2 = [] := by
      by_contra hne
      exact hnil hne
    subst hv2
    have hZ : cv.2 = ['Z'] := by
      unfold skipLit at h2
      cases hcv : cv.2 with
      | nil => simp [hcv] at h2
      | cons c rest =>
        rw [hcv] at h2
        by_cases hcz : c = 'Z'
        · simp only [hcz, if_true, Option.some.injEq] at h2
          rw [hcz, h2]
        · simp [hcz] at h2
    obtain ⟨r, hr, hfr⟩ := parseClock_strip _ _ hc
    rw [hZ] at hfr
    have hdate := parseDate_strip _ _ hd
    have hT := skipLit_strip _ _ _ (by decide) h1
    have e20 : "dddd-dd-ddTdd:dd:ddZ".toList
        = "dddd-dd-dd".toList ++ (['T'] ++ ("dd:dd:dd".toList ++ ['Z'])) := by decide
    have e19 : "dddd-dd-ddTdd:dd:dd".toList
        = "dddd-dd-dd".toList ++ (['T'] ++ "dd:dd:dd".toList) := by decide
    have e18 : "dddd-dd-ddTd:dd:dd".toList
        = "dddd-dd-dd".toList ++ (['T'] ++ "d:dd:dd".toList) := by decide
    rcases hr with hr2 | hr1
    · have s19 : stripPattern "dddd-dd-ddTdd:dd:dd".toList cs = some r := by
        rw [e19, stripPattern_append, hdate, Option.some_bind, stripPattern_append, hT,
          Option.some_bind, hr2]
      rcases fracSecond_Z r hfr.symm with hrz | hfz
      · left
        rw [matchesPattern_iff, e20, stripPattern_append, hdate, Option.some_bind,
          stripPattern_append, hT, Option.some_bind, stripPattern_append, hr2,
          Option.some_bind, hrz]
        decide
      · right
        left
        rw [s19]
        exact hfz
    · have s18 : stripPattern "dddd-dd-ddTd:dd:dd".toList cs = some r := by
        rw [e18, stripPattern_append, hdate, Option.some_bind, stripPattern_append, hT,
          Option.some_bind, hr1]
      right
      right
      rw [s18]
      rcases fracSecond_Z r hfr.symm with hrz | hfz
      · simp [hrz]
      · simp [hfz]

theorem timeParse_rejects_other_formats (ts : String)
    (hfmt : specTimestampFormat ts = false) (hvar : toleratedVariant ts = false) :
    (timeParse ts).2 ≠ none := by
  unfold timeParse
  cases hp : parseChars ts.toList with
  | none => simp
  | some t =>
    exfalso
    unfold specTimestampFormat at hfmt
    unfold toleratedVariant at hvar
    simp only [Bool.or_eq_false_iff] at hvar
    rcases parseChars_shape _ _ hp with h | h | h
    · rw [h] at hfmt
      exact absurd hfmt (by simp)
    · rw [h] at hvar
      exact absurd hvar.1 (by simp)
    · rw [h] at hvar
      exact absurd hvar.2 (by simp)

theorem runBuilder_cons (op : BuilderOp) (ops : List BuilderOp) (r : EchoResponse) :
    runBuilder (op :: ops) r = runBuilder ops (op.apply r) := rfl

theorem runBuilder_snoc (ops : List BuilderOp) (op : BuilderOp) (r : EchoResponse) :
    runBuilder (ops ++ [op]) r = op.apply (runBuilder ops r) := by
  unfold runBuilder
  rw [List.foldl_append]
  rfl

theorem apply_Version (op : BuilderOp) (r : EchoResponse) :
    (op.apply r).Version = r.Version := by
  cases op <;> rfl

theorem apply_SessionAttributes (op : BuilderOp) (r : EchoResponse) :
    (op.apply r).SessionAttributes = r.SessionAttributes := by
  cases op <;> rfl

theorem runBuilder_Version (ops : List BuilderOp) (r : EchoResponse) :
    (runBuilder ops r).Version = r.Version := by
  induction ops generalizing r with
  | nil => rfl
  | cons op ops ih => rw [runBuilder_cons, ih, apply_Version]

theorem runBuilder_SessionAttributes (ops : List BuilderOp) (r : EchoResponse) :
    (runBuilder ops r).SessionAttributes = r.SessionAttributes := by
  induction ops generalizing r with
  | nil => rfl
  | cons op ops ih => rw [runBuilder_cons, ih, apply_SessionAttributes]

/-- The speech payloads the two speech setters write. -/
theorem apply_OutputSpeech_shape (op : BuilderOp) (r : EchoResponse) :
    (op.apply r).Response.OutputSpeech = r.Response.OutputSpeech
    ∨ (∃ text, (op.apply r).Response.OutputSpeech
        = some { «Type» := "PlainText", Text := text })
    ∨ (∃ text, (op.apply r).Response.OutputSpeech
        = some { «Type» := "SSML", SSML := text }) := by
  cases op with
  | OutputSpeech text => exact Or.inr (Or.inl ⟨text, rfl⟩)
  | OutputSpeechSSML text => exact Or.inr (Or.inr ⟨text, rfl⟩)
  | _ => exact Or.inl rfl

theorem runBuilder_OutputSpeech_shape (ops : List BuilderOp) (r : EchoResponse) :
    (runBuilder ops r).Response.OutputSpeech = r.Response.OutputSpeech
    ∨ (∃ text, (runBuilder ops r).Response.OutputSpeech
        = some { «Type» := "PlainText", Text := text })
    ∨ (∃ text, (runBuilder ops r).Response.OutputSpeech
        = some { «Type» := "SSML", SSML := text }) := by
  induction ops generalizing r with
  | nil => exact Or.inl rfl
  | cons op ops ih =>
    rw [runBuilder_cons]
    rcases ih (op.apply r) with h | h | h
    · rw [h]
      exact apply_OutputSpeech_shape op r
    · exact Or.inr (Or.inl h)
    · exact Or.inr (Or.inr h)

theorem runBuilder_ShouldEndSession (ops : List BuilderOp) (r : EchoResponse) :
    (runBuilder ops r).Response.ShouldEndSession
      = (lastEndSession ops).getD r.Response.ShouldEndSession := by
  induction ops generalizing r with
  | nil => rfl
  | cons op ops ih =>
    rw [runBuilder_cons, ih]
    rw [lastEndSession]
    cases lastEndSession ops with
    | some flag => rfl
    | none => cases op <;> rfl

theorem runBuilder_append (ops1 ops2 : List BuilderOp) (r : EchoResponse) :
    runBuilder (ops1 ++ ops2) r = runBuilder ops2 (runBuilder ops1 r) := by
  unfold runBuilder
  rw [List.foldl_append]

theorem apply_ShouldEndSession_of_other (op : BuilderOp) (r : EchoResponse)
    (h : endSessionFlag op = none) :
    (op.apply r).Response.ShouldEndSession = r.Response.ShouldEndSession := by
  cases op with
  | EndSession flag => simp [endSessionFlag] at h
  | _ => rfl

theorem runBuilder_ShouldEndSession_of_others (ops : List BuilderOp) (r : EchoResponse)
    (h : ∀ op ∈ ops, endSessionFlag op = none) :
    (runBuilder ops r).Response.ShouldEndSession = r.Response.ShouldEndSession := by
  induction ops generalizing r with
  | nil => rfl
  | cons op ops ih =>
    rw [runBuilder_cons, ih (op.apply r) (fun o ho => h o (List.mem_cons_of_mem _ ho)),
      apply_ShouldEndSession_of_other op r (h op (List.mem_cons_self _ _))]

theorem marshalEntries_error (l : List (String × GoValue)) (e : GoError)
    (h : marshalEntries l = Except.error e) : ∃ kv ∈ l, kv.2.encoding = Except.error e := by
  induction l with
  | nil => simp [marshalEntries] at h
  | cons kv rest ih =>
    obtain ⟨k, v⟩ := kv
    unfold marshalEntries at h
    cases hv : v.encoding with
    | error e1 =>
      simp only [hv, Except.error.injEq] at h
      exact ⟨(k, v), List.mem_cons_self _ _, by rw [hv, h]⟩
    | ok d =>
      simp only [hv] at h
      cases hr : marshalEntries rest with
      | error e2 =>
        simp only [hr, Except.error.injEq] at h
        obtain ⟨kv, hmem, henc⟩ := ih (by rw [hr, h])
        exact ⟨kv, List.mem_cons_of_mem _ hmem, henc⟩
      | ok ms => simp [hr] at h

theorem String_eq_marshalResponse (this : EchoResponse) :
    this.String = marshalResponse this := by
  unfold EchoResponse.String
  cases marshalResponse this <;> rfl

theorem String_error_origin (this : EchoResponse) (e : GoError)
    (h : this.String = Except.error e) :
    ∃ kvs, this.SessionAttributes = some kvs
      ∧ ∃ kv ∈ kvs, kv.2.encoding = Except.error e := by
  rw [String_eq_marshalResponse] at h
  unfold marshalResponse marshalSessionAttributes at h
  cases hm : this.SessionAttributes with
  | none => simp [hm] at h
  | some kvs =>
    rw [hm] at h
    dsimp only at h
    by_cases hl : kvs.length = 0
    · rw [if_pos hl] at h
      simp at h
    · rw [if_neg hl] at h
      unfold marshalMap at h
      have hmem := marshalEntries_error (kvs.insertionSort (fun a b => a.1 ≤ b.1)) e
      generalize marshalEntries (kvs.insertionSort (fun a b => a.1 ≤ b.1)) = res at h hmem
      cases res with
      | ok ms => simp at h
      | error e1 =>
        simp only [Except.error.injEq] at h
        obtain ⟨kv, hkv, henc⟩ := hmem (by rw [h])
        exact ⟨kvs, rfl, kv,
          (List.perm_insertionSort (fun a b => a.1 ≤ b.1) kvs).mem_iff.mp hkv, henc⟩

/-! ## Request model -/

/-- C1: when `Request.Timestamp` parses to the time `t`, then for every
wall-clock time `now`, `VerifyTimestamp` returns true if and only if `now - t`
is strictly less than 150 seconds; it returns true when `t = now`, and false
when `now - t` is 150 seconds or more. -/
theorem C1_VerifyTimestamp_fresh_iff (this : EchoRequest) (now t : Time)
    (hparse : timeParse this.Request.Timestamp = (t, none)) :
    (this.VerifyTimestamp now = true ↔ now - t < 150 * Second)
    ∧ (t = now → this.VerifyTimestamp now = true)
    ∧ (150 * Second ≤ now - t → this.VerifyTimestamp now = false) := by
  have ht : (timeParse this.Request.Timestamp).1 = t := by rw [hparse]
  rw [VerifyTimestamp_eq, ht]
  refine ⟨by simp, ?_, ?_⟩
  · intro h
    subst h
    simp [Second]
  · intro h
    simp only [decide_eq_false_iff_not, not_lt]
    exact h

/-- Witness of C1: the timestamp `2026-11-04T12:00:00Z` read one nanosecond
short of 150 seconds later. -/
theorem C1_VerifyTimestamp_fresh_iff_witness :
    (({ Request := { Timestamp := "2026-11-04T12:00:00Z" } } : EchoRequest).VerifyTimestamp
        63929390549999999999 = true
      ↔ (63929390549999999999 : Time) - 63929390400000000000 < 150 * Second)
    ∧ ((63929390400000000000 : Time) = 63929390549999999999 →
        ({ Request := { Timestamp := "2026-11-04T12:00:00Z" } } : EchoRequest).VerifyTimestamp
          63929390549999999999 = true)
    ∧ (150 * Second ≤ (63929390549999999999 : Time) - 63929390400000000000 →
        ({ Request := { Timestamp := "2026-11-04T12:00:00Z" } } : EchoRequest).VerifyTimestamp
          63929390549999999999 = false) :=
  C1_VerifyTimestamp_fresh_iff { Request := { Timestamp := "2026-11-04T12:00:00Z" } }
    63929390549999999999 63929390400000000000 (by decide)

/-- C2 as stated fails: the timestamp `2026-11-04T12:00:00.5Z` is not in the
format `YYYY-MM-DDTHH:MM:SSZ` (it carries a fractional second), the parser
accepts it, and one second later `VerifyTimestamp` returns true; likewise
`2026-11-04T5:00:00Z`, whose hour has one digit. And a timestamp the parser
rejects, such as the empty string, is taken for the zero time, so
`VerifyTimestamp` returns true on a clock that reads less than 150 seconds
after 0001-01-01T00:00:00Z. -/
theorem C2_counterexample :
    (specTimestampFormat "2026-11-04T12:00:00.5Z" = false
      ∧ timeParse "2026-11-04T12:00:00.5Z" = (63929390400500000000, none)
      ∧ ({ Request := { Timestamp := "2026-11-04T12:00:00.5Z" } } : EchoRequest).VerifyTimestamp
          63929390401500000000 = true)
    ∧ (specTimestampFormat "2026-11-04T5:00:00Z" = false
      ∧ timeParse "2026-11-04T5:00:00Z" = (63929365200000000000, none)
      ∧ ({ Request := { Timestamp := "2026-11-04T5:00:00Z" } } : EchoRequest).VerifyTimestamp
          63929365201000000000 = true)
    ∧ (specTimestampFormat "" = false
      ∧ (timeParse "").2 ≠ none
      ∧ ({ Request := { Timestamp := "" } } : EchoRequest).VerifyTimestamp
          (zeroTime + 149 * Second) = true) := by
  decide

/-- C2, amended: on a wall clock that reads at least 150 seconds after the
zero time 0001-01-01T00:00:00Z, `VerifyTimestamp` returns false for every
request whose `Request.Timestamp` the parser rejects; the parser rejects, and
`VerifyTimestamp` so returns false for, every timestamp that is neither in the
format `YYYY-MM-DDTHH:MM:SSZ` nor one of the two tolerated variants (a
fractional second before the `Z`, a one-digit hour); the empty string is among
them. -/
theorem C2_rejected_timestamp_not_fresh (this : EchoRequest) (now : Time)
    (hclock : 150 * Second ≤ now - zeroTime) :
    ((timeParse this.Request.Timestamp).2 ≠ none → this.VerifyTimestamp now = false)
    ∧ (specTimestampFormat this.Request.Timestamp = false →
        toleratedVariant this.Request.Timestamp = false →
        (timeParse this.Request.Timestamp).2 ≠ none ∧ this.VerifyTimestamp now = false)
    ∧ (this.Request.Timestamp = "" → this.VerifyTimestamp now = false) := by
  have hrej : (timeParse this.Request.Timestamp).2 ≠ none →
      this.VerifyTimestamp now = false := by
    intro hr
    rw [VerifyTimestamp_eq, timeParse_error_fst _ hr]
    simp only [decide_eq_false_iff_not, not_lt]
    exact hclock
  refine ⟨hrej, ?_, ?_⟩
  · intro hfmt hvar
    have hr := timeParse_rejects_other_formats _ hfmt hvar
    exact ⟨hr, hrej hr⟩
  · intro he
    apply hrej
    rw [he]
    decide

/-- Witness of the amended C2: the empty timestamp and the date-only timestamp
`2026-11-04`, read at noon on 2026-11-04. -/
theorem C2_rejected_timestamp_not_fresh_witness :
    ({ Request := { Timestamp := "" } } : EchoRequest).VerifyTimestamp
        63929390400000000000 = false
    ∧ ((timeParse "2026-11-04").2 ≠ none
      ∧ ({ Request := { Timestamp := "2026-11-04" } } : EchoRequest).VerifyTimestamp
        63929390400000000000 = false) :=
  ⟨(C2_rejected_timestamp_not_fresh { Request := { Timestamp := "" } } 63929390400000000000
      (by decide)).1 (by decide),
   (C2_rejected_timestamp_not_fresh { Request := { Timestamp := "2026-11-04" } }
      63929390400000000000 (by decide)).2.1 (by decide) (by decide)⟩

/-- C3: `VerifyAppID x` returns true if and only if `x` equals
`Session.Application.ApplicationID`; an `x` that differs from it only in letter
case, or is a proper prefix of it, or has it as a proper prefix, gives false. -/
theorem C3_VerifyAppID_iff (this : EchoRequest) (x : String) :
    (this.VerifyAppID x = true ↔ x = this.Session.Application.ApplicationID)
    ∧ (x ≠ this.Session.Application.ApplicationID →
        x.toList.map Char.toLower
          = this.Session.Application.ApplicationID.toList.map Char.toLower →
        this.VerifyAppID x = false)
    ∧ (x ≠ this.Session.Application.ApplicationID →
        x.toList <+: this.Session.Application.ApplicationID.toList →
        this.VerifyAppID x = false)
    ∧ (x ≠ this.Session.Application.ApplicationID →
        this.Session.Application.ApplicationID.toList <+: x.toList →
        this.VerifyAppID x = false) := by
  have hiff : this.VerifyAppID x = true ↔ x = this.Session.Application.ApplicationID := by
    unfold EchoRequest.VerifyAppID
    constructor
    · intro h
      by_contra hne
      have hne2 : ¬ this.Session.Application.ApplicationID = x := fun e => hne e.symm
      simp [hne2] at h
    · intro h
      simp [h]
  have hne : x ≠ this.Session.Application.ApplicationID → this.VerifyAppID x = false := by
    intro h
    cases hv : this.VerifyAppID x with
    | false => rfl
    | true => exact absurd (hiff.mp hv) h
  exact ⟨hiff, fun h _ => hne h, fun h _ => hne h, fun h _ => hne h⟩

/-- Witness of C3: an application id against itself in upper case and against
a proper prefix of itself. -/
theorem C3_VerifyAppID_iff_witness :
    ({ Session := { Application := { ApplicationID := "amzn1.ask.skill.abc" } } } :
        EchoRequest).VerifyAppID "AMZN1.ASK.SKILL.ABC" = false
    ∧ ({ Session := { Application := { ApplicationID := "amzn1.ask.skill.abc" } } } :
        EchoRequest).VerifyAppID "amzn1.ask" = false :=
  ⟨(C3_VerifyAppID_iff
      { Session := { Application := { ApplicationID := "amzn1.ask.skill.abc" } } }
      "AMZN1.ASK.SKILL.ABC").2.1 (by decide) (by decide),
   (C3_VerifyAppID_iff
      { Session := { Application := { ApplicationID := "amzn1.ask.skill.abc" } } }
      "amzn1.ask").2.2.1 (by decide) (by decide)⟩

/-- C4: `GetSlotValue name` returns `(v, nil)` if and only if the intent's
`Slots` mapping has the key `name` and `v` is the `Value` of that slot; when
the key is absent it returns the empty string with the error
`Slot name not found.`; a slot present with an empty `Value` is found, with a
nil error. -/
theorem C4_GetSlotValue_found_iff (this : EchoRequest) (name : String) :
    (∀ v : String, this.GetSlotValue name = (v, none)
        ↔ ∃ slot, this.Request.Intent.Slots.index name = some slot ∧ slot.Value = v)
    ∧ (this.Request.Intent.Slots.index name = none →
        this.GetSlotValue name = ("", some ⟨"Slot name not found."⟩))
    ∧ (∀ slot, this.Request.Intent.Slots.index name = some slot → slot.Value = "" →
        this.GetSlotValue name = ("", none))
    ∧ ((this.GetSlotValue name).2 = none
        ↔ (this.Request.Intent.Slots.index name).isSome = true) := by
  unfold EchoRequest.GetSlotValue
  cases h : this.Request.Intent.Slots.index name with
  | none => simp
  | some slot =>
    refine ⟨?_, ?_, ?_, ?_⟩
    · intro v
      simp
    · intro hc
      simp at hc
    · intro s hs hv
      simp only [Option.some.injEq] at hs
      subst hs
      simp [hv]
    · simp

/-- Witness of C4: the slots `city = Boston` and `note = ""`; `city` and the
empty-valued `note` are found, `zip` is not. -/
theorem C4_GetSlotValue_found_iff_witness :
    ({ Request := { Intent := { Slots := some [("city", { Name := "city", Value := "Boston" }),
        ("note", { Name := "note", Value := "" })] } } } : EchoRequest).GetSlotValue "zip"
      = ("", some ⟨"Slot name not found."⟩)
    ∧ ({ Request := { Intent := { Slots := some [("city", { Name := "city", Value := "Boston" }),
        ("note", { Name := "note", Value := "" })] } } } : EchoRequest).GetSlotValue "note"
      = ("", none)
    ∧ ({ Request := { Intent := { Slots := some [("city", { Name := "city", Value := "Boston" }),
        ("note", { Name := "note", Value := "" })] } } } : EchoRequest).GetSlotValue "city"
      = ("Boston", none) :=
  ⟨(C4_GetSlotValue_found_iff
      { Request := { Intent := { Slots := some [("city", { Name := "city", Value := "Boston" }),
        ("note", { Name := "note", Value := "" })] } } } "zip").2.1 (by decide),
   (C4_GetSlotValue_found_iff
      { Request := { Intent := { Slots := some [("city", { Name := "city", Value := "Boston" }),
        ("note", { Name := "note", Value := "" })] } } } "note").2.2.1
      { Name := "note", Value := "" } (by decide) (by decide),
   ((C4_GetSlotValue_found_iff
      { Request := { Intent := { Slots := some [("city", { Name := "city", Value := "Boston" }),
        ("note", { Name := "note", Value := "" })] } } } "city").1 "Boston").mpr
      ⟨{ Name := "city", Value := "Boston" }, by decide, by decide⟩⟩

/-- C5: `GetIntentName` returns `Request.Intent.Name` when `Request.Type` is
exactly `IntentRequest` and `Request.Type` itself otherwise; a `LaunchRequest`
yields `LaunchRequest`, an `IntentRequest` with intent name `GetWeather` yields
`GetWeather`. -/
theorem C5_GetIntentName (this : EchoRequest) :
    (this.Request.«Type» = "IntentRequest" → this.GetIntentName = this.Request.Intent.Name)
    ∧ (this.Request.«Type» ≠ "IntentRequest" → this.GetIntentName = this.Request.«Type»)
    ∧ (this.Request.«Type» = "LaunchRequest" → this.GetIntentName = "LaunchRequest")
    ∧ (this.Request.«Type» = "IntentRequest" → this.Request.Intent.Name = "GetWeather" →
        this.GetIntentName = "GetWeather") := by
  unfold EchoRequest.GetIntentName EchoRequest.GetRequestType
  refine ⟨?_, ?_, ?_, ?_⟩
  · intro h
    simp [h]
  · intro h
    simp [h]
  · intro h
    simp [h]
  · intro h hn
    simp [h, hn]

/-- Witness of C5: a `LaunchRequest` and an `IntentRequest` named `GetWeather`. -/
theorem C5_GetIntentName_witness :
    ({ Request := { «Type» := "LaunchRequest" } } : EchoRequest).GetIntentName = "LaunchRequest"
    ∧ ({ Request := { «Type» := "IntentRequest", Intent := { Name := "GetWeather" } } } :
        EchoRequest).GetIntentName = "GetWeather" :=
  ⟨(C5_GetIntentName { Request := { «Type» := "LaunchRequest" } }).2.2.1 (by decide),
   (C5_GetIntentName
      { Request := { «Type» := "IntentRequest", Intent := { Name := "GetWeather" } } }).2.2.2
      (by decide) (by decide)⟩

/-! ## Response builder and serialization -/

/-- C6 as stated fails on two response values: with `SessionAttributes` set to
an empty non-nil map the serialization has no `sessionAttributes` key although
the field is set, and with `Directives` pointing to a nil slice the key
`directives` is present with the value `null`. -/
theorem C6_counterexample :
    (respEmptyAttributes.SessionAttributes.isSome = true
      ∧ ∃ doc, respEmptyAttributes.String = Except.ok doc
          ∧ doc.hasKey "sessionAttributes" = false)
    ∧ (respNilDirectives.Response.Directives.isSome = true
      ∧ ∃ doc, respNilDirectives.String = Except.ok doc
          ∧ doc.path ["response", "directives"] = some JSON.null) :=
  ⟨⟨rfl, _, rfl, rfl⟩, ⟨rfl, _, rfl, rfl⟩⟩

/-- C6, amended: in every serialization `String` produces, the key
`sessionAttributes` is present if and only if the map has at least one entry;
each of `outputSpeech`, `card`, `reprompt` and `directives` is present in the
`response` object if and only if its pointer field is non-nil;
`sessionAttributes`, `outputSpeech`, `card` and `reprompt` are never `null`,
and `directives` is `null` exactly when it points to a nil slice;
`shouldEndSession` is always present with the field's value. `String` produces
a serialization whenever there are no session attributes, and
`NewEchoResponse().OutputSpeech("Hi")` serializes with
`response.outputSpeech.type = "PlainText"`, `response.outputSpeech.text = "Hi"`,
`shouldEndSession = true` and no `card`, `reprompt` or `directives` key. -/
theorem C6_serialized_optional_keys :
    (∀ (this : EchoResponse) (doc : JSON), this.String = Except.ok doc →
      (doc.hasKey "sessionAttributes" = true ↔ 0 < this.SessionAttributes.len)
      ∧ ((doc.path ["response", "outputSpeech"]).isSome = this.Response.OutputSpeech.isSome)
      ∧ ((doc.path ["response", "card"]).isSome = this.Response.Card.isSome)
      ∧ ((doc.path ["response", "reprompt"]).isSome = this.Response.Reprompt.isSome)
      ∧ ((doc.path ["response", "directives"]).isSome = this.Response.Directives.isSome)
      ∧ doc.path ["sessionAttributes"] ≠ some JSON.null
      ∧ doc.path ["response", "outputSpeech"] ≠ some JSON.null
      ∧ doc.path ["response", "card"] ≠ some JSON.null
      ∧ doc.path ["response", "reprompt"] ≠ some JSON.null
      ∧ (doc.path ["response", "directives"] = some JSON.null
          ↔ this.Response.Directives = some none)
      ∧ doc.path ["response", "shouldEndSession"]
          = some (JSON.bool this.Response.ShouldEndSession))
    ∧ (∀ this : EchoResponse, this.SessionAttributes.len = 0 →
        ∃ doc, this.String = Except.ok doc)
    ∧ (∃ doc, (NewEchoResponse.OutputSpeech "Hi").String = Except.ok doc
        ∧ doc.path ["response", "outputSpeech", "type"] = some (JSON.str "PlainText")
        ∧ doc.path ["response", "outputSpeech", "text"] = some (JSON.str "Hi")
        ∧ doc.path ["response", "shouldEndSession"] = some (JSON.bool true)
        ∧ doc.path ["response", "card"] = none
        ∧ doc.path ["response", "reprompt"] = none
        ∧ doc.path ["response", "directives"] = none) := by
  refine ⟨?_, ?_, ⟨_, rfl, rfl, rfl, rfl, rfl, rfl, rfl⟩⟩
  · intro this doc h
    have hp : ∀ key, doc.path ["response", key] = this.Response.marshal.get? key := by
      intro key
      rw [JSON.path_response this doc h, JSON.path_one]
    rw [hp, hp, hp, hp, hp, body_get_outputSpeech, body_get_card, body_get_reprompt,
      body_get_directives, body_get_shouldEndSession, JSON.path_one]
    refine ⟨?_, ?_, ?_, ?_, ?_, ?_, ?_, ?_, ?_, ?_, rfl⟩
    · unfold JSON.hasKey
      rcases String_get_sessionAttributes this doc h with ⟨h0, hg⟩ | ⟨hpos, ms, hg⟩
      · rw [hg, h0]
        simp
      · rw [hg]
        simpa using hpos
    · cases this.Response.OutputSpeech <;> rfl
    · cases this.Response.Card <;> rfl
    · cases this.Response.Reprompt <;> rfl
    · cases this.Response.Directives <;> rfl
    · rcases String_get_sessionAttributes this doc h with ⟨_, hg⟩ | ⟨_, ms, hg⟩
      · rw [hg]
        simp
      · rw [hg]
        simp
    · cases this.Response.OutputSpeech with
      | none => simp
      | some p => simp [EchoRespPayload.marshal]
    · cases this.Response.Card with
      | none => simp
      | some p => simp [EchoRespPayload.marshal]
    · cases this.Response.Reprompt with
      | none => simp
      | some p => simp [EchoReprompt.marshal]
    · cases this.Response.Directives with
      | none => simp
      | some ds =>
        cases ds with
        | none => simp [marshalDirectives]
        | some xs => simp [marshalDirectives]
  · intro this h0
    exact ⟨_, String_ok_of_no_attributes this h0⟩

/-- Witness of the amended C6: a response with speech, a card and one session
attribute, and its serialization. -/
theorem C6_serialized_optional_keys_witness :
    (JSON.obj [("version", JSON.str "1.0"),
        ("sessionAttributes", JSON.obj [("turn", JSON.num 2)]),
        ("response", JSON.obj [
          ("outputSpeech", JSON.obj [("type", JSON.str "PlainText"), ("text", JSON.str "Hi"),
            ("image", JSON.obj [])]),
          ("card", JSON.obj [("type", JSON.str "LinkAccount"), ("image", JSON.obj [])]),
          ("shouldEndSession", JSON.bool true)])]).hasKey "sessionAttributes" = true
      ↔ 0 < GoMap.len (some [("turn", (⟨Except.ok (JSON.num 2)⟩ : GoValue))]) :=
  (C6_serialized_optional_keys.1
    (({ NewEchoResponse with
        SessionAttributes := some [("turn", ⟨Except.ok (JSON.num 2)⟩)] }
      : EchoResponse).OutputSpeech "Hi").LinkAccountCard
    _ rfl).1

/-- C7: after `AudioPlayerPlay url token` the directive list is exactly one
directive with `Type` `AudioPlayer.Play`, `PlayBehavior` `REPLACE_ALL` and the
stream `Token = token`, `URL = url`, `OffsetInMilli = 0`, whatever directive
list the response held before; it is encoded as a one-element array. -/
theorem C7_AudioPlayerPlay_single_directive (this : EchoResponse) (url token : String) :
    (this.AudioPlayerPlay url token).Response.Directives
      = some (some [
          { «Type» := "AudioPlayer.Play",
            PlayBehavior := "REPLACE_ALL",
            AudioItem := { Stream := { Token := token, URL := url, OffsetInMilli := 0 } } }])
    ∧ (this.AudioPlayerPlay url token).Response.marshal.get? "directives"
      = some (JSON.arr [JSON.obj [("type", JSON.str "AudioPlayer.Play"),
          ("playBehavior", JSON.str "REPLACE_ALL"),
          ("audioItem", JSON.obj [("stream", JSON.obj [("token", JSON.str token),
            ("url", JSON.str url), ("offsetInMilliseconds", JSON.num 0)])])]]) := by
  refine ⟨rfl, ?_⟩
  rw [body_get_directives]
  rfl

/-- C8: after `StandardCard title content smallImg largeImg` the card is
present with `Type` `Standard` and the given title and content, whatever card
was set before; in its serialization the image object has the key
`smallImageUrl` exactly when `smallImg` is non-empty, then with value
`smallImg`, and the key `largeImageUrl` exactly when `largeImg` is non-empty,
then with value `largeImg`, each independently; the same holds at
`response.card.image` of every serialization `String` produces.
`StandardCard("T","C","","large.png")` omits `smallImageUrl` and has
`largeImageUrl = "large.png"`. -/
theorem C8_StandardCard_image_keys (this : EchoResponse)
    (title content smallImg largeImg : String) :
    (∃ card, (this.StandardCard title content smallImg largeImg).Response.Card = some card
      ∧ card.«Type» = "Standard" ∧ card.Title = title ∧ card.Content = content
      ∧ card.Text = "" ∧ card.SSML = ""
      ∧ card.Image = { SmallImageURL := smallImg, LargeImageURL := largeImg }
      ∧ (card.marshal.path ["image", "smallImageUrl"]
          = if smallImg = "" then none else some (JSON.str smallImg))
      ∧ (card.marshal.path ["image", "largeImageUrl"]
          = if largeImg = "" then none else some (JSON.str largeImg)))
    ∧ (∀ doc, (this.StandardCard title content smallImg largeImg).String = Except.ok doc →
        (doc.path ["response", "card", "image", "smallImageUrl"]
          = if smallImg = "" then none else some (JSON.str smallImg))
        ∧ (doc.path ["response", "card", "image", "largeImageUrl"]
          = if largeImg = "" then none else some (JSON.str largeImg)))
    ∧ (∃ doc, (NewEchoResponse.StandardCard "T" "C" "" "large.png").String = Except.ok doc
        ∧ doc.path ["response", "card", "type"] = some (JSON.str "Standard")
        ∧ doc.path ["response", "card", "title"] = some (JSON.str "T")
        ∧ doc.path ["response", "card", "content"] = some (JSON.str "C")
        ∧ doc.path ["response", "card", "image", "smallImageUrl"] = none
        ∧ doc.path ["response", "card", "image", "largeImageUrl"]
            = some (JSON.str "large.png")) := by
  have hcard : ∃ card, (this.StandardCard title content smallImg largeImg).Response.Card
        = some card
      ∧ card.«Type» = "Standard" ∧ card.Title = title ∧ card.Content = content
      ∧ card.Text = "" ∧ card.SSML = ""
      ∧ card.Image = { SmallImageURL := smallImg, LargeImageURL := largeImg } := by
    unfold EchoResponse.StandardCard
    by_cases hs : smallImg = "" <;> by_cases hl : largeImg = "" <;> simp [hs, hl]
  obtain ⟨card, hc, hty, hti, hco, htx, hss, him⟩ := hcard
  have hsmall : card.marshal.path ["image", "smallImageUrl"]
      = if smallImg = "" then none else some (JSON.str smallImg) := by
    rw [JSON.path_cons, payload_get_image, Option.some_bind, JSON.path_one, image_get_small,
      him]
  have hlarge : card.marshal.path ["image", "largeImageUrl"]
      = if largeImg = "" then none else some (JSON.str largeImg) := by
    rw [JSON.path_cons, payload_get_image, Option.some_bind, JSON.path_one, image_get_large,
      him]
  refine ⟨⟨card, hc, hty, hti, hco, htx, hss, him, hsmall, hlarge⟩, ?_,
    ⟨_, rfl, rfl, rfl, rfl, rfl, rfl⟩⟩
  intro doc hdoc
  have hpath : ∀ rest, doc.path ("response" :: "card" :: rest) = card.marshal.path rest := by
    intro rest
    rw [JSON.path_response _ doc hdoc, JSON.path_cons, body_get_card, hc]
    rfl
  rw [hpath, hpath]
  exact ⟨hsmall, hlarge⟩

/-- Witness of C8: a Standard card with only a small image, set over a
response that already has a Simple card, and its serialization. -/
theorem C8_StandardCard_image_keys_witness :
    (JSON.obj [("version", JSON.str "1.0"),
        ("response", JSON.obj [
          ("card", JSON.obj [("type", JSON.str "Standard"), ("title", JSON.str "T"),
            ("content", JSON.str "C"),
            ("image", JSON.obj [("smallImageUrl", JSON.str "small.png")])]),
          ("shouldEndSession", JSON.bool true)])]).path
        ["response", "card", "image", "smallImageUrl"]
      = (if "small.png" = "" then none else some (JSON.str "small.png"))
    ∧ (JSON.obj [("version", JSON.str "1.0"),
        ("response", JSON.obj [
          ("card", JSON.obj [("type", JSON.str "Standard"), ("title", JSON.str "T"),
            ("content", JSON.str "C"),
            ("image", JSON.obj [("smallImageUrl", JSON.str "small.png")])]),
          ("shouldEndSession", JSON.bool true)])]).path
        ["response", "card", "image", "largeImageUrl"]
      = (if "" = "" then none else some (JSON.str ""))  :=
  (C8_StandardCard_image_keys (NewEchoResponse.SimpleCard "old" "card")
    "T" "C" "small.png" "").2.1 _ rfl

/-- C9: `AudioPlayerStop` gives the same response, and `String` the same
result, for any two pairs of arguments, and its directive list is exactly one
directive of `Type` `AudioPlayer.Stop` with every other field zero; likewise
`AudioPlayClearQueue` with `Type` `AudioPlayer.ClearQueue`. -/
theorem C9_AudioPlayerStop_ignores_arguments (this : EchoResponse)
    (url1 token1 url2 token2 : String) :
    this.AudioPlayerStop url1 token1 = this.AudioPlayerStop url2 token2
    ∧ (this.AudioPlayerStop url1 token1).String = (this.AudioPlayerStop url2 token2).String
    ∧ (this.AudioPlayerStop url1 token1).Response.Directives
        = some (some [
            { «Type» := "AudioPlayer.Stop",
              PlayBehavior := "",
              AudioItem := { Stream := { Token := "", URL := "", OffsetInMilli := 0 } } }])
    ∧ this.AudioPlayClearQueue url1 token1 = this.AudioPlayClearQueue url2 token2
    ∧ (this.AudioPlayClearQueue url1 token1).String
        = (this.AudioPlayClearQueue url2 token2).String
    ∧ (this.AudioPlayClearQueue url1 token1).Response.Directives
        = some (some [
            { «Type» := "AudioPlayer.ClearQueue",
              PlayBehavior := "",
              AudioItem := { Stream := { Token := "", URL := "", OffsetInMilli := 0 } } }]) :=
  ⟨rfl, rfl, rfl, rfl, rfl, rfl⟩

/-- C10: after `OutputSpeech text` the speech payload is exactly
`Type = "PlainText"`, `Text = text`, and after `OutputSpeechSSML text` exactly
`Type = "SSML"`, `SSML = text`, every other payload field empty, whatever
speech payload the response held before; so of two speech calls in a row the
last alone determines the payload. -/
theorem C10_OutputSpeech_overwrites (this : EchoResponse) (text : String) :
    (this.OutputSpeech text).Response.OutputSpeech
      = some { «Type» := "PlainText", Title := "", Text := text, SSML := "", Content := "",
               Image := { SmallImageURL := "", LargeImageURL := "" } }
    ∧ (this.OutputSpeechSSML text).Response.OutputSpeech
      = some { «Type» := "SSML", Title := "", Text := "", SSML := text, Content := "",
               Image := { SmallImageURL := "", LargeImageURL := "" } }
    ∧ (∀ prev : String,
        ((this.OutputSpeechSSML prev).OutputSpeech text).Response.OutputSpeech
          = (this.OutputSpeech text).Response.OutputSpeech
        ∧ ((this.OutputSpeech prev).OutputSpeech text).Response.OutputSpeech
          = (this.OutputSpeech text).Response.OutputSpeech
        ∧ ((this.OutputSpeech prev).OutputSpeechSSML text).Response.OutputSpeech
          = (this.OutputSpeechSSML text).Response.OutputSpeech
        ∧ ((this.OutputSpeechSSML prev).OutputSpeechSSML text).Response.OutputSpeech
          = (this.OutputSpeechSSML text).Response.OutputSpeech) :=
  ⟨rfl, rfl, fun _ => ⟨rfl, rfl, rfl, rfl⟩⟩

/-! ## Builder sequences, defaults and frame conditions -/

/-- C11: in every response reached from `NewEchoResponse()` by a finite
sequence of builder calls, a present `outputSpeech` payload is one the two
speech setters write, with a single variant populated: its `Type` is
`PlainText` or `SSML`; if it is `PlainText` the `SSML` field is empty, if it is
`SSML` the `Text` field is empty; `Text` and `SSML` are never both non-empty. -/
theorem C11_speech_single_variant (ops : List BuilderOp) (p : EchoRespPayload)
    (h : (runBuilder ops NewEchoResponse).Response.OutputSpeech = some p) :
    (p.«Type» = "PlainText" → p.SSML = "")
    ∧ (p.«Type» = "SSML" → p.Text = "")
    ∧ (p.«Type» = "PlainText" ∨ p.«Type» = "SSML")
    ∧ ¬ (p.Text ≠ "" ∧ p.SSML ≠ "")
    ∧ ((∃ text, p = { «Type» := "PlainText", Text := text })
        ∨ (∃ text, p = { «Type» := "SSML", SSML := text })) := by
  rcases runBuilder_OutputSpeech_shape ops NewEchoResponse with h0 | ⟨text, h1⟩ | ⟨text, h2⟩
  · rw [h0] at h
    exact absurd h (by simp [NewEchoResponse])
  · rw [h1] at h
    simp only [Option.some.injEq] at h
    subst h
    have hne : ("PlainText" : String) ≠ "SSML" := by decide
    refine ⟨fun _ => rfl, fun hx => absurd hx hne, Or.inl rfl, ?_, Or.inl ⟨text, rfl⟩⟩
    intro hx
    exact hx.2 rfl
  · rw [h2] at h
    simp only [Option.some.injEq] at h
    subst h
    have hne : ("SSML" : String) ≠ "PlainText" := by decide
    refine ⟨fun hx => absurd hx hne, fun _ => rfl, Or.inr rfl, ?_, Or.inr ⟨text, rfl⟩⟩
    intro hx
    exact hx.1 rfl

/-- Witness of C11: plain speech, a card, then SSML speech. -/
theorem C11_speech_single_variant_witness :
    (("SSML" : String) = "PlainText" → ("<speak>b</speak>" : String) = "")
    ∧ (("SSML" : String) = "SSML" → ("" : String) = "")
    ∧ (("SSML" : String) = "PlainText" ∨ ("SSML" : String) = "SSML")
    ∧ ¬ (("" : String) ≠ "" ∧ ("<speak>b</speak>" : String) ≠ "")
    ∧ ((∃ text, ({ «Type» := "SSML", SSML := "<speak>b</speak>" } : EchoRespPayload)
          = { «Type» := "PlainText", Text := text })
        ∨ (∃ text, ({ «Type» := "SSML", SSML := "<speak>b</speak>" } : EchoRespPayload)
          = { «Type» := "SSML", SSML := text })) :=
  C11_speech_single_variant
    [BuilderOp.OutputSpeech "a", BuilderOp.Card "t" "c",
      BuilderOp.OutputSpeechSSML "<speak>b</speak>"]
    { «Type» := "SSML", SSML := "<speak>b</speak>" } rfl

/-- C12: `NewEchoResponse()` has `Response.ShouldEndSession = true`, `Version`
`1.0`, and `SessionAttributes`, `OutputSpeech`, `Card`, `Reprompt` and
`Directives` all absent; `String` serializes it, and the serialization has
none of those five keys. -/
theorem C12_NewEchoResponse_defaults :
    NewEchoResponse.Response.ShouldEndSession = true
    ∧ NewEchoResponse.Version = "1.0"
    ∧ NewEchoResponse.SessionAttributes = none
    ∧ NewEchoResponse.Response.OutputSpeech = none
    ∧ NewEchoResponse.Response.Card = none
    ∧ NewEchoResponse.Response.Reprompt = none
    ∧ NewEchoResponse.Response.Directives = none
    ∧ NewEchoResponse.String
        = Except.ok (JSON.obj [("version", JSON.str "1.0"),
            ("response", JSON.obj [("shouldEndSession", JSON.bool true)])])
    ∧ (∃ doc, NewEchoResponse.String = Except.ok doc
        ∧ doc.hasKey "sessionAttributes" = false
        ∧ doc.path ["response", "outputSpeech"] = none
        ∧ doc.path ["response", "card"] = none
        ∧ doc.path ["response", "reprompt"] = none
        ∧ doc.path ["response", "directives"] = none
        ∧ doc.path ["response", "shouldEndSession"] = some (JSON.bool true)
        ∧ doc.path ["version"] = some (JSON.str "1.0")) :=
  ⟨rfl, rfl, rfl, rfl, rfl, rfl, rfl, rfl, _, rfl, rfl, rfl, rfl, rfl, rfl, rfl, rfl⟩

/-- C13, what the code does: the card set by `LinkAccountCard` has `Type`
`LinkAccount` and empty title, content and image, whatever card was there
before, and its serialization has no `title` and no `content` key, but it does
have the key `image`, with an empty object as value: `omitempty` on the
struct-typed field `Image` never leaves it out. -/
theorem C13_LinkAccountCard_serializes_image (this : EchoResponse) :
    this.LinkAccountCard.Response.Card
      = some { «Type» := "LinkAccount", Title := "", Text := "", SSML := "", Content := "",
               Image := { SmallImageURL := "", LargeImageURL := "" } }
    ∧ this.LinkAccountCard.Response.marshal.get? "card"
      = some (JSON.obj [("type", JSON.str "LinkAccount"), ("image", JSON.obj [])])
    ∧ this.LinkAccountCard.Response.marshal.path ["card", "title"] = none
    ∧ this.LinkAccountCard.Response.marshal.path ["card", "content"] = none
    ∧ this.LinkAccountCard.Response.marshal.path ["card", "image"] = some (JSON.obj [])
    ∧ NewEchoResponse.LinkAccountCard.String
      = Except.ok (JSON.obj [("version", JSON.str "1.0"),
          ("response", JSON.obj [
            ("card", JSON.obj [("type", JSON.str "LinkAccount"), ("image", JSON.obj [])]),
            ("shouldEndSession", JSON.bool true)])]) := by
  have hc : this.LinkAccountCard.Response.marshal.get? "card"
      = some (JSON.obj [("type", JSON.str "LinkAccount"), ("image", JSON.obj [])]) := by
    rw [body_get_card]
    rfl
  refine ⟨rfl, hc, ?_, ?_, ?_, rfl⟩
  · rw [JSON.path_cons, hc]
    rfl
  · rw [JSON.path_cons, hc]
    rfl
  · rw [JSON.path_cons, hc]
    rfl

/-- C14: `Card title content` and `SimpleCard title content` give the same
response, and `String` the same result; the card is exactly `Type` `Simple`
with the given title and content and no image URLs, also when the response
held a Standard card with image URLs before. -/
theorem C14_Card_is_SimpleCard (this : EchoResponse) (title content : String) :
    this.Card title content = this.SimpleCard title content
    ∧ (this.Card title content).String = (this.SimpleCard title content).String
    ∧ (this.Card title content).Response.Card
      = some { «Type» := "Simple", Title := title, Text := "", SSML := "", Content := content,
               Image := { SmallImageURL := "", LargeImageURL := "" } }
    ∧ (∀ t c s l : String,
        ((this.StandardCard t c s l).Card title content).Response.Card
          = (this.Card title content).Response.Card
        ∧ ((this.StandardCard t c s l).SimpleCard title content).Response.Card
          = (this.Card title content).Response.Card) :=
  ⟨rfl, rfl, rfl, fun _ _ _ _ => ⟨rfl, rfl⟩⟩

/-- C15: after `Reprompt text` the reprompt is present and its output speech is
exactly `Type` `PlainText`, `Text` `text`, every other field empty, whatever
reprompt the response held before. -/
theorem C15_Reprompt_overwrites (this : EchoResponse) (text : String) :
    (this.Reprompt text).Response.Reprompt
      = some { OutputSpeech :=
          { «Type» := "PlainText", Title := "", Text := text, SSML := "", Content := "",
            Image := { SmallImageURL := "", LargeImageURL := "" } } }
    ∧ (∀ prev : String,
        ((this.Reprompt prev).Reprompt text).Response.Reprompt
          = (this.Reprompt text).Response.Reprompt) :=
  ⟨rfl, fun _ => rfl⟩

/-- C16: after `EndSession flag` the value of `Response.ShouldEndSession` is
`flag`; after any sequence of builder calls it is the flag of the last
`EndSession` call of the sequence, whatever calls come before, between and
after, and the value the response started with when the sequence has no
`EndSession` call, which is true for a response created by
`NewEchoResponse()`. -/
theorem C16_EndSession_last_call_wins :
    (∀ (this : EchoResponse) (flag : Bool),
      (this.EndSession flag).Response.ShouldEndSession = flag)
    ∧ (∀ (r : EchoResponse) (before after : List BuilderOp) (flag : Bool),
        (∀ op ∈ after, endSessionFlag op = none) →
        (runBuilder (before ++ BuilderOp.EndSession flag :: after) r).Response.ShouldEndSession
          = flag)
    ∧ (∀ (r : EchoResponse) (ops : List BuilderOp),
        (runBuilder ops r).Response.ShouldEndSession
          = (lastEndSession ops).getD r.Response.ShouldEndSession)
    ∧ (∀ ops : List BuilderOp, (∀ op ∈ ops, endSessionFlag op = none) →
        (runBuilder ops NewEchoResponse).Response.ShouldEndSession = true) := by
  refine ⟨fun _ _ => rfl, ?_, fun r ops => runBuilder_ShouldEndSession ops r, ?_⟩
  · intro r before after flag hafter
    rw [runBuilder_append, runBuilder_cons, runBuilder_ShouldEndSession_of_others _ _ hafter]
    rfl
  · intro ops hops
    rw [runBuilder_ShouldEndSession_of_others _ _ hops]
    rfl

/-- Witness of C16: two `EndSession` calls among other calls, the last with
`false`; and a sequence without any `EndSession` call. -/
theorem C16_EndSession_last_call_wins_witness :
    (runBuilder ([BuilderOp.OutputSpeech "a", BuilderOp.EndSession true, BuilderOp.Card "t" "c"]
        ++ BuilderOp.EndSession false :: [BuilderOp.Reprompt "again", BuilderOp.LinkAccountCard])
      NewEchoResponse).Response.ShouldEndSession = false
    ∧ (runBuilder [BuilderOp.OutputSpeech "a", BuilderOp.AudioPlayerStop "u" "t"]
        NewEchoResponse).Response.ShouldEndSession = true :=
  ⟨C16_EndSession_last_call_wins.2.1 NewEchoResponse
      [BuilderOp.OutputSpeech "a", BuilderOp.EndSession true, BuilderOp.Card "t" "c"]
      [BuilderOp.Reprompt "again", BuilderOp.LinkAccountCard] false (by decide),
   C16_EndSession_last_call_wins.2.2.2
      [BuilderOp.OutputSpeech "a", BuilderOp.AudioPlayerStop "u" "t"] (by decide)⟩

/-- C17: on a request whose `Intent` is the zero value (no name, nil `Slots`),
`GetSlotValue` returns the empty string with the error `Slot name not found.`
for every slot name, `AllSlots` returns the nil map, which has length 0 and no
key, and `GetIntentName` returns the request type for every request type other
than `IntentRequest` (for `IntentRequest` it returns the empty intent name);
every accessor returns. -/
theorem C17_lookups_without_intent (this : EchoRequest)
    (hintent : this.Request.Intent = {}) :
    (∀ slotName : String,
      this.GetSlotValue slotName = ("", some ⟨"Slot name not found."⟩))
    ∧ this.AllSlots = none
    ∧ this.AllSlots.len = 0
    ∧ (∀ key : String, this.AllSlots.index key = none)
    ∧ (this.Request.«Type» ≠ "IntentRequest" → this.GetIntentName = this.Request.«Type»)
    ∧ (this.Request.«Type» = "IntentRequest" → this.GetIntentName = "")
    ∧ this.GetRequestType = this.Request.«Type»
    ∧ this.GetSessionID = this.Session.SessionID
    ∧ this.GetUserID = this.Session.User.UserID := by
  have hslots : this.Request.Intent.Slots = none := by rw [hintent]
  have hname : this.Request.Intent.Name = "" := by rw [hintent]
  refine ⟨?_, hslots, ?_, ?_, ?_, ?_, rfl, rfl, rfl⟩
  · intro slotName
    unfold EchoRequest.GetSlotValue
    rw [hslots]
    rfl
  · unfold EchoRequest.AllSlots
    rw [hslots]
    rfl
  · intro key
    unfold EchoRequest.AllSlots
    rw [hslots]
    rfl
  · intro hty
    unfold EchoRequest.GetIntentName EchoRequest.GetRequestType
    rw [if_neg hty]
  · intro hty
    unfold EchoRequest.GetIntentName EchoRequest.GetRequestType
    rw [if_pos hty, hname]

/-- Witness of C17: a `LaunchRequest` and a `SessionEndedRequest` without
intent. -/
theorem C17_lookups_without_intent_witness :
    ({ Request := { «Type» := "LaunchRequest" } } : EchoRequest).GetSlotValue "city"
      = ("", some ⟨"Slot name not found."⟩)
    ∧ ({ Request := { «Type» := "LaunchRequest" } } : EchoRequest).AllSlots.len = 0
    ∧ ({ Request := { «Type» := "LaunchRequest" } } : EchoRequest).GetIntentName
      = "LaunchRequest"
    ∧ ({ Request := { «Type» := "SessionEndedRequest", Reason := "USER_INITIATED" } }
        : EchoRequest).GetIntentName = "SessionEndedRequest" :=
  ⟨(C17_lookups_without_intent { Request := { «Type» := "LaunchRequest" } } rfl).1 "city",
   (C17_lookups_without_intent { Request := { «Type» := "LaunchRequest" } } rfl).2.2.1,
   (C17_lookups_without_intent { Request := { «Type» := "LaunchRequest" } } rfl).2.2.2.2.1
      (by decide),
   (C17_lookups_without_intent
      { Request := { «Type» := "SessionEndedRequest", Reason := "USER_INITIATED" } }
      rfl).2.2.2.2.1 (by decide)⟩

/-- C18: for every response obtained from `NewEchoResponse()` by a finite
sequence of builder calls with any arguments, `String` returns the encoded
payload and no error. On every response, `String` returns exactly what the
encoding step returns, payload or error; an error of `String` is the error the
encoder gave for one of the session-attribute values, which no builder call
sets. -/
theorem C18_String_never_fails_on_built :
    (∀ ops : List BuilderOp,
      (runBuilder ops NewEchoResponse).String
        = Except.ok (JSON.obj [("version", JSON.str "1.0"),
            ("response", (runBuilder ops NewEchoResponse).Response.marshal)]))
    ∧ (∀ this : EchoResponse, this.String = marshalResponse this)
    ∧ (∀ (this : EchoResponse) (e : GoError), this.String = Except.error e →
        ∃ kvs, this.SessionAttributes = some kvs
          ∧ ∃ kv ∈ kvs, kv.2.encoding = Except.error e)
    ∧ (({ NewEchoResponse with
          SessionAttributes := some [("done", ⟨Except.error ⟨"json: unsupported type: chan bool"⟩⟩)] }
        : EchoResponse).OutputSpeech "Hi").String
        = Except.error ⟨"json: unsupported type: chan bool"⟩ := by
  refine ⟨?_, String_eq_marshalResponse, String_error_origin, rfl⟩
  intro ops
  have h := String_ok_of_no_attributes (runBuilder ops NewEchoResponse)
    (by rw [runBuilder_SessionAttributes]; rfl)
  rw [h, runBuilder_Version]
  rfl

/-- Witness of C18: a response that carries a session attribute the encoder
rejects; the error of `String` is that attribute's error. -/
theorem C18_String_never_fails_on_built_witness :
    ∃ kvs, (({ NewEchoResponse with
          SessionAttributes := some [("done", ⟨Except.error ⟨"json: unsupported type: chan bool"⟩⟩)] }
        : EchoResponse).OutputSpeech "Hi").SessionAttributes = some kvs
      ∧ ∃ kv ∈ kvs, kv.2.encoding
          = Except.error (⟨"json: unsupported type: chan bool"⟩ : GoError) :=
  C18_String_never_fails_on_built.2.2.1 _ _ rfl

/-- C19: when `Request.Timestamp` parses to a time `t` later than the wall-clock
time `now`, by any amount, `VerifyTimestamp` returns true. -/
theorem C19_future_timestamp_is_fresh (this : EchoRequest) (now t : Time)
    (hparse : timeParse this.Request.Timestamp = (t, none)) (hfuture : now < t) :
    this.VerifyTimestamp now = true := by
  have ht : (timeParse this.Request.Timestamp).1 = t := by rw [hparse]
  rw [VerifyTimestamp_eq, ht]
  have key : ∀ a b : Int, a < b → a - b < 150 * 1000000000 := by
    intro a b hab
    omega
  simp only [decide_eq_true_eq]
  exact key now t hfuture

/-- Witness of C19: the timestamp `9999-12-31T23:59:59Z`, almost eight thousand
years ahead of a clock that reads noon on 2026-11-04. -/
theorem C19_future_timestamp_is_fresh_witness :
    ({ Request := { Timestamp := "9999-12-31T23:59:59Z" } } : EchoRequest).VerifyTimestamp
      63929390400000000000 = true :=
  C19_future_timestamp_is_fresh { Request := { Timestamp := "9999-12-31T23:59:59Z" } }
    63929390400000000000 315537897599000000000 (by decide) (by decide)

/-- C20: every builder call leaves every field but its own as it was:
`OutputSpeech` and `OutputSpeechSSML` all but `Response.OutputSpeech`; `Card`,
`SimpleCard`, `StandardCard` and `LinkAccountCard` all but `Response.Card`;
`Reprompt` all but `Response.Reprompt`; `AudioPlayerPlay`, `AudioPlayerStop`
and `AudioPlayClearQueue` all but `Response.Directives`; `EndSession` all but
`Response.ShouldEndSession`. So `Version` and `SessionAttributes` are the same
after every builder call and after every sequence of them, and `Version` is
`1.0` in every response reached from `NewEchoResponse()`. -/
theorem C20_builder_frame (this : EchoResponse) :
    (∀ text, sameExceptOutputSpeech (this.OutputSpeech text) this)
    ∧ (∀ text, sameExceptOutputSpeech (this.OutputSpeechSSML text) this)
    ∧ (∀ title content, sameExceptCard (this.Card title content) this)
    ∧ (∀ title content, sameExceptCard (this.SimpleCard title content) this)
    ∧ (∀ title content smallImg largeImg,
        sameExceptCard (this.StandardCard title content smallImg largeImg) this)
    ∧ sameExceptCard this.LinkAccountCard this
    ∧ (∀ text, sameExceptReprompt (this.Reprompt text) this)
    ∧ (∀ url token, sameExceptDirectives (this.AudioPlayerPlay url token) this)
    ∧ (∀ url token, sameExceptDirectives (this.AudioPlayerStop url token) this)
    ∧ (∀ url token, sameExceptDirectives (this.AudioPlayClearQueue url token) this)
    ∧ (∀ flag, sameExceptShouldEndSession (this.EndSession flag) this)
    ∧ (∀ op : BuilderOp, (op.apply this).Version = this.Version
        ∧ (op.apply this).SessionAttributes = this.SessionAttributes)
    ∧ (∀ ops : List BuilderOp, (runBuilder ops this).Version = this.Version
        ∧ (runBuilder ops this).SessionAttributes = this.SessionAttributes)
    ∧ (∀ ops : List BuilderOp, (runBuilder ops NewEchoResponse).Version = "1.0") := by
  refine ⟨fun _ => ⟨rfl, rfl, rfl, rfl, rfl, rfl⟩, fun _ => ⟨rfl, rfl, rfl, rfl, rfl, rfl⟩,
    fun _ _ => ⟨rfl, rfl, rfl, rfl, rfl, rfl⟩, fun _ _ => ⟨rfl, rfl, rfl, rfl, rfl, rfl⟩,
    fun _ _ _ _ => ⟨rfl, rfl, rfl, rfl, rfl, rfl⟩, ⟨rfl, rfl, rfl, rfl, rfl, rfl⟩,
    fun _ => ⟨rfl, rfl, rfl, rfl, rfl, rfl⟩, fun _ _ => ⟨rfl, rfl, rfl, rfl, rfl, rfl⟩,
    fun _ _ => ⟨rfl, rfl, rfl, rfl, rfl, rfl⟩, fun _ _ => ⟨rfl, rfl, rfl, rfl, rfl, rfl⟩,
    fun _ => ⟨rfl, rfl, rfl, rfl, rfl, rfl⟩,
    fun op => ⟨apply_Version op this, apply_SessionAttributes op this⟩,
    fun ops => ⟨runBuilder_Version ops this, runBuilder_SessionAttributes ops this⟩, ?_⟩
  intro ops
  rw [runBuilder_Version]
  rfl
